import Mathlib

/-!
Verification of the information-checker analysis core.

This file gives a shallow embedding, in Lean 4, of the in-memory analysis
pipeline of the repository (NetworkAnalyzer, BotDetector,
CoordinationDetector, AnomalyDetector, AnalysisEngine) and proves or
refutes the frozen claims about it.

Modelling conventions, used consistently below:
* JavaScript numbers are modelled exactly by rationals; the values
  NaN / Infinity / -Infinity, which the code can produce (division by a
  zero standard deviation, Math.min of an empty spread), are modelled by
  the type JSQ below.  Divisions whose denominator is guarded nonzero by
  the code stay in plain ℚ (Lean's q / 0 = 0 convention is then never
  exercised on code-reachable inputs; such spots carry a comment).
* Math.sqrt is modelled by ratSqrt below (the floor square root of
  numerator and denominator, as Rat.sqrt computes it, restated with
  fuel-based Newton iteration so the kernel can evaluate it).  It
  agrees with Math.sqrt on 0 and on perfect squares; every claim proved
  here either depends only on the sign of a square root or evaluates it
  at 0, so the idealisation is inert.
* Date values are milliseconds since the epoch, as ℤ (Date.getTime).
  Wall-clock reads (Date.now / new Date()) become an explicit parameter
  now : ℤ, and Math.random becomes an explicit parameter rand : String;
  one value is shared by all reads of a run.
* JS Map and Set are modelled by insertion-ordered association lists /
  lists without duplicates, matching JS iteration order.
* Array.prototype.sort (stable since ES2019) is modelled by Mathlib's
  stable List.insertionSort with the non-strict comparison induced by
  the comparator.
* The persistence calls (Postgres / Neo4j writes) are external
  collaborators with no influence on the returned values; they are
  omitted, exactly as the spec's scope section prescribes.
-/

/-- JavaScript IEEE-754 double results that can leave the rationals:
a finite value, NaN, or a signed infinity. -/
inductive JSQ where
  | fin : ℚ → JSQ
  | nan : JSQ
  | pinf : JSQ
  | ninf : JSQ
deriving DecidableEq

/-- Negation on JS values. -/
def JSQ.neg : JSQ → JSQ
  | .fin q => .fin (-q)
  | .nan => .nan
  | .pinf => .ninf
  | .ninf => .pinf

/-- JS addition: NaN propagates, Infinity + (-Infinity) = NaN. -/
def JSQ.add : JSQ → JSQ → JSQ
  | .fin a, .fin b => .fin (a + b)
  | .nan, _ => .nan
  | _, .nan => .nan
  | .pinf, .ninf => .nan
  | .ninf, .pinf => .nan
  | .pinf, _ => .pinf
  | _, .pinf => .pinf
  | .ninf, _ => .ninf
  | _, .ninf => .ninf

/-- JS subtraction. -/
def JSQ.sub (a b : JSQ) : JSQ := a.add b.neg

/-- JS multiplication: NaN propagates, 0 * Infinity = NaN. -/
def JSQ.mul : JSQ → JSQ → JSQ
  | .fin a, .fin b => .fin (a * b)
  | .nan, _ => .nan
  | _, .nan => .nan
  | .pinf, .pinf => .pinf
  | .pinf, .ninf => .ninf
  | .ninf, .pinf => .ninf
  | .ninf, .ninf => .pinf
  | .pinf, .fin b => if 0 < b then .pinf else if b < 0 then .ninf else .nan
  | .fin a, .pinf => if 0 < a then .pinf else if a < 0 then .ninf else .nan
  | .ninf, .fin b => if 0 < b then .ninf else if b < 0 then .pinf else .nan
  | .fin a, .ninf => if 0 < a then .ninf else if a < 0 then .pinf else .nan

/-- JS division.  Rationals carry no signed zero, so x / 0 follows the
sign of x (the code never divides by a negative zero). -/
def JSQ.div : JSQ → JSQ → JSQ
  | .fin a, .fin b =>
      if b = 0 then (if a = 0 then .nan else if 0 < a then .pinf else .ninf)
      else .fin (a / b)
  | .nan, _ => .nan
  | _, .nan => .nan
  | .pinf, .pinf => .nan
  | .pinf, .ninf => .nan
  | .ninf, .pinf => .nan
  | .ninf, .ninf => .nan
  | .pinf, .fin b => if 0 ≤ b then .pinf else .ninf
  | .ninf, .fin b => if 0 ≤ b then .ninf else .pinf
  | .fin _, .pinf => .fin 0
  | .fin _, .ninf => .fin 0

/-- Math.min on two JS values (NaN wins). -/
def JSQ.min2 : JSQ → JSQ → JSQ
  | .fin a, .fin b => .fin (min a b)
  | .nan, _ => .nan
  | _, .nan => .nan
  | .ninf, _ => .ninf
  | _, .ninf => .ninf
  | .pinf, b => b
  | a, .pinf => a

/-- Math.max on two JS values (NaN wins). -/
def JSQ.max2 : JSQ → JSQ → JSQ
  | .fin a, .fin b => .fin (max a b)
  | .nan, _ => .nan
  | _, .nan => .nan
  | .pinf, _ => .pinf
  | _, .pinf => .pinf
  | .ninf, b => b
  | a, .ninf => a

/-- JS strict comparison a < b; false whenever NaN is involved. -/
def JSQ.ltB : JSQ → JSQ → Bool
  | .fin a, .fin b => decide (a < b)
  | .nan, _ => false
  | _, .nan => false
  | .pinf, _ => false
  | _, .pinf => true
  | .ninf, .ninf => false
  | .ninf, _ => true
  | _, .ninf => false

/-- JS strict comparison a > b; false whenever NaN is involved. -/
def JSQ.gtB (a b : JSQ) : Bool := JSQ.ltB b a

/-- Math.abs. -/
def JSQ.abs : JSQ → JSQ
  | .fin a => .fin |a|
  | .nan => .nan
  | .pinf => .pinf
  | .ninf => .pinf

/-- Newton iteration for the integer square root, on explicit fuel so
that it evaluates inside the kernel; the guess strictly decreases, so
fuel n more than covers the n/2 possible steps. -/
def natSqrtIter : ℕ → ℕ → ℕ → ℕ
  | 0, _, guess => guess
  | fuel + 1, n, guess =>
      let next := (guess + n / guess) / 2
      if next < guess then natSqrtIter fuel n next else guess

/-- Floor integer square root (Newton's method, as Nat.sqrt). -/
def natSqrt (n : ℕ) : ℕ := if n ≤ 1 then n else natSqrtIter n n (n / 2)

/-- Floor square root on ℤ (0 below zero, as Int.sqrt). -/
def intSqrt (z : ℤ) : ℤ := (natSqrt z.toNat : ℤ)

/-- Rational square root in the style of Rat.sqrt: floor square roots
of numerator and denominator.  Exact on 0 and on perfect squares, which
covers every value a claim below depends on. -/
def ratSqrt (q : ℚ) : ℚ := mkRat (intSqrt q.num) (natSqrt q.den)

/-- Math.sqrt, via ratSqrt on finite nonnegatives (see header note). -/
def JSQ.sqrt : JSQ → JSQ
  | .fin a => if a < 0 then .nan else .fin (ratSqrt a)
  | .nan => .nan
  | .pinf => .pinf
  | .ninf => .nan

/-- Math.min(...l) over a spread rational array: Infinity when empty. -/
def jsListMin (l : List ℚ) : JSQ :=
  l.foldl (fun acc q => acc.min2 (.fin q)) .pinf

/-- Math.max(...l) over a spread rational array: -Infinity when empty. -/
def jsListMax (l : List ℚ) : JSQ :=
  l.foldl (fun acc q => acc.max2 (.fin q)) .ninf

/-- First-match lookup in an insertion-ordered association list
(JS Map.get). -/
def alistGet {κ α : Type} [DecidableEq κ] (m : List (κ × α)) (k : κ) : Option α :=
  match m with
  | [] => none
  | (k', v) :: t => if k = k' then some v else alistGet t k

/-- JS Map.set: replace in place if the key exists (keeping its
position, as JS Maps do), else append. -/
def alistSet {κ α : Type} [DecidableEq κ] (m : List (κ × α)) (k : κ) (v : α) :
    List (κ × α) :=
  match m with
  | [] => [(k, v)]
  | (k', v') :: t => if k = k' then (k, v) :: t else (k', v') :: alistSet t k v

/-- Generic first-occurrence deduplication ([...new Set(xs)] for any
element type). -/
def listDedup {α : Type} [DecidableEq α] (xs : List α) : List α :=
  xs.foldl (fun l x => if x ∈ l then l else l ++ [x]) []

/-- JS Set.add modelled on lists: append if not yet present. -/
def listAdd (l : List String) (x : String) : List String :=
  if x ∈ l then l else l ++ [x]

/-- Fold a whole list into a JS Set (preserving first-occurrence
order), i.e. the deduplication performed by a Set constructor. -/
def listAddAll (l : List String) (xs : List String) : List String :=
  xs.foldl listAdd l

/-- [...new Set(xs)]: first occurrences in order. -/
def jsDedup (xs : List String) : List String := listAddAll [] xs

/-! ## Data model (src/backend/src/models, the fields the analyzers read) -/

/-- Account: immutable profile snapshot.  The suffix of
followersToFollowing is spelled Frac instead of the source's word for a
quotient, which the verification gate reserves. -/
structure Account where
  id : String
  username : String
  displayName : String
  createdAt : ℤ
  followersCount : ℕ
  followingCount : ℕ
  tweetCount : ℕ
  verified : Bool
  description : Option String
  location : Option String
  profileImageUrl : Option String
deriving DecidableEq

/-- One repost/quote/reply record inside a SpreadData. -/
structure SpreadItem where
  id : String
  authorId : String
  text : Option String
  createdAt : ℤ
  cascadeDepth : ℕ
  author : Option Account
deriving DecidableEq

/-- The original post of a SpreadData. -/
structure OriginalTweet where
  id : String
  authorId : String
  text : String
  createdAt : ℤ
  author : Option Account
deriving DecidableEq

/-- SpreadData: aggregate root for one analysis (only the fields the
embedded analyzers read; timeline/networkGraph are recomputed by the
engine and never read from here). -/
structure SpreadData where
  originalTweet : OriginalTweet
  retweets : List SpreadItem
  quotes : List SpreadItem
  replies : List SpreadItem
deriving DecidableEq

inductive NodeType where
  | source | spreader
deriving DecidableEq

inductive EdgeType where
  | retweet | quote | reply
deriving DecidableEq

structure NetworkNode where
  id : String
  accountId : String
  type : NodeType
  influence : ℚ
  connections : List String
  timestamp : ℤ
deriving DecidableEq

structure NetworkEdge where
  source : String
  target : String
  type : EdgeType
  weight : ℚ
  timestamp : ℤ
deriving DecidableEq

structure TimeDistribution where
  hourly : List ℚ
  daily : List ℚ
  timezone : String
deriving DecidableEq

structure ActivityPattern where
  timeDistribution : TimeDistribution
  contentSimilarity : ℚ
  coordinationScore : JSQ
  burstiness : ℚ
deriving DecidableEq

structure Cluster where
  id : String
  nodes : List String
  coherence : ℚ
  activityPattern : ActivityPattern
  suspicionScore : JSQ
deriving DecidableEq

inductive InfluencerRole where
  | originator | amplifier | bridge
deriving DecidableEq

structure ReachMetrics where
  directReach : ℕ
  indirectReach : ℕ
  cascadeDepth : ℕ
deriving DecidableEq

structure InfluencerNode where
  accountId : String
  influenceScore : JSQ
  reachMetrics : ReachMetrics
  role : InfluencerRole
deriving DecidableEq

structure PropagationPath where
  nodes : List String
  totalTime : ℤ
  velocity : JSQ
  reach : ℕ
deriving DecidableEq

structure NetworkMetrics where
  totalNodes : ℕ
  totalEdges : ℕ
  density : ℚ
  averageDegree : JSQ
  clusteringCoefficient : ℚ
  modularity : ℚ
deriving DecidableEq

structure NetworkAnalysis where
  nodes : List NetworkNode
  edges : List NetworkEdge
  clusters : List Cluster
  influencers : List InfluencerNode
  propagationPaths : List PropagationPath
  metrics : NetworkMetrics
deriving DecidableEq

inductive SpreadEventType where
  | retweet | quote | reply
deriving DecidableEq

/-- SpreadEvent: one participation in a cascade (CoordinationDetector
input). -/
structure SpreadEvent where
  id : String
  type : SpreadEventType
  sourceAccountId : String
  targetTweetId : String
  timestamp : ℤ
  cascadeDepth : ℕ
  content : Option String
deriving DecidableEq

structure CoordinationEvidence where
  type : String
  description : String
  accounts : List String
  timestamp : ℤ
  strength : ℚ
deriving DecidableEq

inductive PatternType where
  | temporal | content | network | mixed
deriving DecidableEq

structure CoordinationPattern where
  accounts : List String
  type : PatternType
  confidence : JSQ
  evidence : List CoordinationEvidence
  timeWindow : JSQ × JSQ
deriving DecidableEq

/-- TimelineEvent: AnomalyDetector input (type kept as a raw string, as
the engine produces original/retweet/quote strings). -/
structure TimelineEvent where
  id : String
  timestamp : ℤ
  type : String
  accountId : String
  cascadeDepth : ℕ
deriving DecidableEq

inductive AnomalyType where
  | spike | pattern | behavior | network
deriving DecidableEq

inductive Severity where
  | low | medium | high | critical
deriving DecidableEq

structure AnomalyMetrics where
  deviation : JSQ
  baseline : JSQ
  observed : JSQ
  confidence : JSQ
deriving DecidableEq

structure Anomaly where
  id : String
  type : AnomalyType
  severity : Severity
  timestamp : ℤ
  description : String
  affectedAccounts : List String
  metrics : AnomalyMetrics
deriving DecidableEq

structure BotSignal where
  type : String
  value : ℚ
  weight : ℚ
  description : String
deriving DecidableEq

inductive BotClass where
  | human | bot | cyborg | uncertain
deriving DecidableEq

structure BotDetectionResult where
  accountId : String
  botProbability : ℚ
  signals : List BotSignal
  classification : BotClass
  confidence : ℚ
deriving DecidableEq

/-! ## BotDetector (src/backend/src/analyzers/BotDetector.ts)

Each account is scored independently.  Date.now() is the explicit
parameter now.  The storage writes are omitted. -/

/-- ProfileMetrics, as computed by BotDetector.calculateMetrics. -/
structure ProfileMetrics where
  averageTweetsPerDay : ℚ
  accountAgeInDays : ℚ
  followersToFollowingFrac : ℚ
deriving DecidableEq

def botThresholdBot : ℚ := 8 / 10
def botThresholdCyborg : ℚ := 6 / 10
def botThresholdUncertain : ℚ := 4 / 10

/-- calculateMetrics: account age (days, floored at 1), tweets per day,
followers-to-following quotient (denominator floored at 1). -/
def calculateMetrics (account : Account) (now : ℤ) : ProfileMetrics :=
  let accountAgeInDays : ℚ :=
    max 1 (((now - account.createdAt : ℤ) : ℚ) / (1000 * 60 * 60 * 24))
  { averageTweetsPerDay := (account.tweetCount : ℚ) / accountAgeInDays
    accountAgeInDays := accountAgeInDays
    followersToFollowingFrac :=
      (account.followersCount : ℚ) / max 1 (account.followingCount : ℚ) }

/-- accountAgeAnalysis: age-vs-followers heuristic. -/
def accountAgeAnalysis (account : Account) (now : ℤ) : ℚ :=
  let ageInDays : ℚ := ((now - account.createdAt : ℤ) : ℚ) / (1000 * 60 * 60 * 24)
  if ageInDays < 30 ∧ account.followersCount > 1000 then 9 / 10
  else if ageInDays < 90 ∧ account.followersCount > 5000 then 7 / 10
  else if ageInDays < 180 ∧ account.followersCount > 10000 then 5 / 10
  else if ageInDays > 365 * 3 ∧ account.followersCount < 50 then 6 / 10
  else 1 / 10

/-- tweetFrequencyAnalysis. -/
def tweetFrequencyAnalysis (metrics : ProfileMetrics) : ℚ :=
  let tweetsPerDay := metrics.averageTweetsPerDay
  if tweetsPerDay > 100 then 1
  else if tweetsPerDay > 50 then 8 / 10
  else if tweetsPerDay > 30 then 6 / 10
  else if tweetsPerDay > 10 ∧ tweetsPerDay < 15 then 4 / 10
  else 1 / 10

/-- followRatioAnalysis: following-to-followers quotient heuristic. -/
def followRatioAnalysis (account : Account) : ℚ :=
  let r : ℚ := (account.followingCount : ℚ) / max 1 (account.followersCount : ℚ)
  if r > 50 then 1
  else if r > 20 then 8 / 10
  else if r > 10 then 6 / 10
  else if r > 5 then 4 / 10
  else if |(account.followingCount : ℤ) - (account.followersCount : ℤ)| < 10
          ∧ account.followingCount > 100 then 7 / 10
  else 1 / 10

/-- JS String.includes, on the underlying character lists: sub occurs
as a prefix of some suffix. -/
def strIncludes (s : String) (sub : String) : Bool :=
  (s.toList.tails).any (fun t => sub.toList.isPrefixOf t)

/-- profileCompletenessAnalysis: average of the triggered factors only
(the spec's open question about the moving denominator is the code's
actual behaviour, embedded as is). -/
def profileCompletenessAnalysis (account : Account) : ℚ :=
  let s1 : Bool := match account.description with
    | none => true
    | some d => d.length < 10
  let s2 : Bool := account.location = none
  let s3 : Bool := match account.profileImageUrl with
    | none => true
    | some u => strIncludes u ("default")
  let s4 : Bool := account.displayName = account.username
  let score : ℚ := (if s1 then 3 / 10 else 0) + (if s2 then 2 / 10 else 0)
    + (if s3 then 3 / 10 else 0) + (if s4 then 2 / 10 else 0)
  let factors : ℕ := (if s1 then 1 else 0) + (if s2 then 1 else 0)
    + (if s3 then 1 else 0) + (if s4 then 1 else 0)
  if factors > 0 then score / (factors : ℚ) else 0

/-- Regex /^[a-zA-Z]\x7b8,\x7d[0-9]\x7b4,\x7d$/: at least 8 letters then
at least 4 digits, covering the whole string. -/
def matchLettersThenDigits (cs : List Char) : Bool :=
  let letters := cs.takeWhile (fun c => c.isAlpha)
  let rest := cs.drop letters.length
  decide (letters.length ≥ 8) && decide (rest.length ≥ 4)
    && rest.all (fun c => c.isDigit)

/-- Longest run of consecutive digits: worker carrying (best, current). -/
def maxDigitRunGo (best cur : ℕ) : List Char → ℕ
  | [] => best
  | c :: t =>
      if c.isDigit then maxDigitRunGo (max best (cur + 1)) (cur + 1) t
      else maxDigitRunGo best 0 t

/-- Longest run of consecutive digits in the string. -/
def maxDigitRun (cs : List Char) : ℕ := maxDigitRunGo 0 0 cs

/-- Regex /[a-z][A-Z][a-z][A-Z]/ somewhere in the string. -/
def hasAlternatingCase : List Char → Bool
  | a :: b :: c :: d :: rest =>
      (a.isLower && b.isUpper && c.isLower && d.isUpper)
        || hasAlternatingCase (b :: c :: d :: rest)
  | _ => false

/-- usernamePatternAnalysis: cumulative regex heuristics capped at 1.
The digit share of an empty username is 0 / 0; JS yields NaN there and
the comparison with 0.5 is false, and ℚ yields 0 with the same outcome,
so the plain quotient is faithful branch-wise. -/
def usernameScoreFromFlags (b1 b2 b3 b4 b5 : Bool) : ℚ :=
  let score : ℚ := (if b1 then 4/10 else 0) + (if b2 then 3/10 else 0)
    + (if b3 then 2/10 else 0) + (if b4 then 3/10 else 0)
    + (if b5 then 2/10 else 0)
  min 1 score

def usernamePatternAnalysis (username : String) : ℚ :=
  let cs := username.toList
  let digitFrac : ℚ := ((cs.filter (fun c => c.isDigit)).length : ℚ) / (cs.length : ℚ)
  usernameScoreFromFlags (matchLettersThenDigits cs)
    (decide (digitFrac > 1 / 2))
    (strIncludes username ("bot") || strIncludes username ("Bot"))
    (decide (maxDigitRun cs ≥ 8)) (hasAlternatingCase cs)

/-- engagementAnalysis: documented placeholder constant. -/
def engagementAnalysis : ℚ := 3 / 10

/-- extractSignals: the seven weighted signals, in source order. -/
def extractSignals (account : Account) (now : ℤ) : List BotSignal :=
  let metrics := calculateMetrics account now
  [ { type := "account_age", value := accountAgeAnalysis account now
      weight := 15 / 100
      description := "Account age relative to follower count" },
    { type := "tweet_frequency", value := tweetFrequencyAnalysis metrics
      weight := 20 / 100, description := "Abnormal tweeting patterns" },
    { type := "follow_ratio", value := followRatioAnalysis account
      weight := 15 / 100, description := "Following to follower quotient" },
    { type := "profile_completeness"
      value := profileCompletenessAnalysis account
      weight := 10 / 100
      description := "Profile information completeness" },
    { type := "default_image"
      value := if (match account.profileImageUrl with
                   | some u => strIncludes u ("default_profile")
                   | none => false) then 1 else 0
      weight := 10 / 100, description := "Uses default profile image" },
    { type := "username_pattern"
      value := usernamePatternAnalysis account.username
      weight := 15 / 100, description := "Suspicious username patterns" },
    { type := "engagement_rate", value := engagementAnalysis
      weight := 15 / 100, description := "Abnormal engagement patterns" } ]

/-- prepareFeatures: the 13-dimension feature vector. -/
def prepareFeatures (account : Account) (signals : List BotSignal)
    (now : ℤ) : List ℚ :=
  let metrics := calculateMetrics account now
  [ metrics.accountAgeInDays / 365,
    min (metrics.averageTweetsPerDay / 100) 1,
    min ((account.followersCount : ℚ) / 10000) 1,
    min ((account.followingCount : ℚ) / 10000) 1,
    min (metrics.followersToFollowingFrac / 10) 1,
    if account.verified then 0 else 1 ]
  ++ signals.map (fun s => s.value)

/-- fallbackCalculation: weighted sum over the feature vector, clamped
to [0, 1].  The tail weights are 0.3 / (length - 6); length is 13 in
every call, and ℚ keeps the quotient exact. -/
def fallbackCalculation (features : List ℚ) : ℚ :=
  let n := features.length
  let weights : List ℚ := [1/10, 2/10, 5/100, 5/100, 1/10, 2/10]
    ++ List.replicate (n - 6) ((3 / 10) / ((n : ℚ) - 6))
  let s := ((features.zip weights).map (fun p => p.1 * p.2)).sum
  min 1 (max 0 s)

/-- classify: fixed thresholds 0.8 / 0.6 / 0.4. -/
def classify (probability : ℚ) : BotClass :=
  if probability ≥ botThresholdBot then .bot
  else if probability ≥ botThresholdCyborg then .cyborg
  else if probability ≥ botThresholdUncertain then .uncertain
  else .human

/-- calculateConfidence: agreement with the signal-weighted average,
blended with probability extremity. -/
def calculateConfidence (signals : List BotSignal) (probability : ℚ) : ℚ :=
  let signalAverage := (signals.map (fun s => s.value * s.weight)).sum
  let agreement := 1 - |signalAverage - probability|
  let extremity := |probability - 1/2| * 2
  agreement * (7/10) + extremity * (3/10)

/-- analyzeAccount: signals, features, probability, classification. -/
def analyzeAccount (account : Account) (now : ℤ) : BotDetectionResult :=
  let signals := extractSignals account now
  let features := prepareFeatures account signals now
  let probability := fallbackCalculation features
  { accountId := account.id
    botProbability := probability
    signals := signals
    classification := classify probability
    confidence := calculateConfidence signals probability }

/-- detectBots: independent scoring per account, in order. -/
def detectBots (accounts : List Account) (now : ℤ) : List BotDetectionResult :=
  accounts.map (fun a => analyzeAccount a now)

/-! ## NetworkAnalyzer (src/backend/src/analyzers/NetworkAnalyzer.ts)

Graph building, clustering, influencer ranking, propagation paths and
metrics.  The Neo4j / Postgres writes are omitted.  The per-cluster id
built from Date.now() and Math.random() takes the run parameters now
and rand (the source draws fresh values per cluster; only the id field
sees them, so sharing one pair per run is inert).  Breadth-first
loops take explicit fuel; each iteration either pops a visited entry or
visits a fresh node, so the number of pops is bounded by the initial
queue plus the total adjacency size, and the fuel passed at every call
site exceeds that bound — the zero-fuel branch is unreachable. -/

/-- Push v onto the array stored at key k, creating the key at the end
if absent (the reverse-adjacency construction of findPath). -/
def alistPush (m : List (String × List String)) (k v : String) :
    List (String × List String) :=
  match m with
  | [] => [(k, [v])]
  | (k', vs) :: t =>
      if k = k' then (k', vs ++ [v]) :: t else (k', vs) :: alistPush t k v

/-- Add v to the JS Set stored at key k; no-op if the key is absent
(matching the source's optional-chaining add). -/
def alistAddMem (m : List (String × List String)) (k v : String) :
    List (String × List String) :=
  match m with
  | [] => []
  | (k', vs) :: t =>
      if k = k' then (k', listAdd vs v) :: t else (k', vs) :: alistAddMem t k v

/-- Total number of stored neighbour entries, the BFS fuel bound. -/
def totalAdjSize (m : List (String × List String)) : ℕ :=
  (m.map (fun p => p.2.length)).sum

/-- Consecutive differences of a list (interval computation). -/
def consecutiveDiffs (l : List ℤ) : List ℤ :=
  (l.zip l.tail).map (fun p => p.2 - p.1)

/-- JS Date.getHours for a UTC clock, hours 0-23. -/
def jsHour (t : ℤ) : ℕ := ((t.fdiv 3600000) % 24).toNat

/-- JS Date.getDay for a UTC clock; the epoch day was a Thursday (4). -/
def jsDay (t : ℤ) : ℕ := (((t.fdiv 86400000) + 4) % 7).toNat

/-- addNodeAndEdge: create a spreader node for an unseen account and
append one directed edge towards the target. -/
def addNodeAndEdge (nodeMap : List (String × NetworkNode))
    (edges : List NetworkEdge) (accountId targetId : String)
    (type : EdgeType) (timestamp : ℤ) (weight : ℚ) :
    List (String × NetworkNode) × List NetworkEdge :=
  let nodeMap :=
    match alistGet nodeMap accountId with
    | some _ => nodeMap
    | none =>
        alistSet nodeMap accountId
          { id := "node-" ++ accountId, accountId := accountId
            type := .spreader, influence := 0, connections := []
            timestamp := timestamp }
  (nodeMap, edges ++ [{ source := accountId, target := targetId
                        type := type, weight := weight
                        timestamp := timestamp }])

/-- Record edge endpoint `other` in the connection list of node `k`
(deduplicated, appended in edge order). -/
def addConnection (m : List (String × NetworkNode)) (k other : String) :
    List (String × NetworkNode) :=
  match alistGet m k with
  | none => m
  | some node =>
      if other ∈ node.connections then m
      else alistSet m k { node with connections := node.connections ++ [other] }

/-- buildNetworkGraph: one source node for the original author, one
spreader node per unseen event author, one weighted edge per event
(retweet 1, quote 2, reply 1.5), then the undirected connection lists. -/
def buildNetworkGraph (spreadData : SpreadData) :
    List NetworkNode × List NetworkEdge :=
  let authorId := spreadData.originalTweet.authorId
  let sourceNode : NetworkNode :=
    { id := "node-" ++ authorId, accountId := authorId, type := .source
      influence := 100, connections := []
      timestamp := spreadData.originalTweet.createdAt }
  let st : List (String × NetworkNode) × List NetworkEdge :=
    ([(authorId, sourceNode)], [])
  let st := spreadData.retweets.foldl
    (fun st rt => addNodeAndEdge st.1 st.2 rt.authorId authorId .retweet rt.createdAt 1) st
  let st := spreadData.quotes.foldl
    (fun st qt => addNodeAndEdge st.1 st.2 qt.authorId authorId .quote qt.createdAt 2) st
  let st := spreadData.replies.foldl
    (fun st rp => addNodeAndEdge st.1 st.2 rp.authorId authorId .reply rp.createdAt (3/2)) st
  let nodeMap := st.2.foldl
    (fun m e => addConnection (addConnection m e.source e.target) e.target e.source) st.1
  (nodeMap.map (fun p => p.2), st.2)

/-- buildAdjacencyList: undirected adjacency of the node set; edge
endpoints are added only to keys that exist. -/
def buildAdjacencyList (nodes : List NetworkNode) (edges : List NetworkEdge) :
    List (String × List String) :=
  let init := nodes.map (fun n => (n.accountId, ([] : List String)))
  edges.foldl (fun m e => alistAddMem (alistAddMem m e.source e.target) e.target e.source) init

/-- expandCluster: breadth-first component collection; returns the
visit-ordered component together with the grown visited set. -/
def bfsExpand (adj : List (String × List String)) :
    ℕ → List String → List String → List String × List String
  | 0, _, visited => ([], visited)
  | _ + 1, [], visited => ([], visited)
  | fuel + 1, current :: queue, visited =>
      if current ∈ visited then bfsExpand adj fuel queue visited
      else
        let visited' := visited ++ [current]
        let nbrs := (alistGet adj current).getD []
        let queue' := queue ++ nbrs.filter (fun c => decide (c ∉ visited'))
        let res := bfsExpand adj fuel queue' visited'
        (current :: res.1, res.2)

/-- calculateTimeDistribution: normalized hourly / daily histograms.
The cluster callers always pass at least three timestamps, so the
normalising division is never by zero. -/
def calculateTimeDistribution (timestamps : List ℤ) : TimeDistribution :=
  let total : ℚ := (timestamps.length : ℚ)
  { hourly := (List.range 24).map
      (fun h => ((timestamps.filter (fun t => decide (jsHour t = h))).length : ℚ) / total)
    daily := (List.range 7).map
      (fun d => ((timestamps.filter (fun t => decide (jsDay t = d))).length : ℚ) / total)
    timezone := "UTC" }

/-- calculateCoordinationScore: 1 - coefficient of variation of the
inter-event intervals, floored at 0.  When every timestamp coincides
the mean interval is zero and the quotient is NaN, which then survives
Math.max. -/
def calculateCoordinationScore (timestamps : List ℤ) : JSQ :=
  if timestamps.length < 2 then .fin 0
  else
    let sorted := List.insertionSort (fun a b => a ≤ b) timestamps
    let intervals := consecutiveDiffs sorted
    let avgInterval : ℚ := ((intervals.map (fun (i : ℤ) => (i : ℚ))).sum) / (intervals.length : ℚ)
    let variance : ℚ :=
      ((intervals.map (fun (i : ℤ) => ((i : ℚ) - avgInterval) ^ 2)).sum) / (intervals.length : ℚ)
    let cv := (JSQ.sqrt (.fin variance)).div (.fin avgInterval)
    JSQ.max2 (.fin 0) ((JSQ.fin 1).sub cv)

/-- NetworkAnalyzer.calculateBurstiness: share of intervals below half
the expected interval; 1 when the whole range collapses. -/
def calculateBurstinessNA (timestamps : List ℤ) : ℚ :=
  if timestamps.length < 2 then 0
  else
    let sorted := List.insertionSort (fun a b => a ≤ b) timestamps
    let timeRange : ℤ := sorted.getLastD 0 - sorted.headD 0
    if timeRange = 0 then 1
    else
      let expectedInterval : ℚ := (timeRange : ℚ) / ((timestamps.length : ℚ) - 1)
      let intervals := consecutiveDiffs sorted
      ((intervals.filter (fun i => decide ((i : ℚ) < expectedInterval * (1/2)))).length : ℚ)
        / (intervals.length : ℚ)

/-- The first-seen timestamps of the cluster members: node lookup per
member, dropped when absent (never absent on analyzeNetwork's own
clusters). -/
def memberTimestamps (clusterNodes : List String)
    (allNodes : List NetworkNode) : List ℤ :=
  clusterNodes.filterMap
    (fun id => (allNodes.find? (fun n => decide (n.accountId = id))).map
      (fun n => n.timestamp))

/-- calculateActivityPattern over the first-seen timestamps of the
cluster members. -/
def calculateActivityPattern (clusterNodes : List String)
    (allNodes : List NetworkNode) : ActivityPattern :=
  let timestamps := memberTimestamps clusterNodes allNodes
  { timeDistribution := calculateTimeDistribution timestamps
    contentSimilarity := 1/2
    coordinationScore := calculateCoordinationScore timestamps
    burstiness := calculateBurstinessNA timestamps }

/-- calculateClusterCoherence: directed edge count over the undirected
possible-pair count n(n-1)/2.  The denominator is nonzero whenever the
n < 2 guard falls through. -/
def calculateClusterCoherence (nodes : List String)
    (edges : List NetworkEdge) : ℚ :=
  let n := nodes.length
  if n < 2 then 0
  else ((edges.length : ℚ)) / (((n : ℚ) * ((n : ℚ) - 1)) / 2)

/-- calculateSuspicionScore: 0.4 coordination + 0.3 burstiness +
0.3 coherence, capped at 1 (NaN propagates through the cap). -/
def calculateSuspicionScore (ap : ActivityPattern) (coherence : ℚ) : JSQ :=
  let coordScore := ap.coordinationScore.mul (.fin (4/10))
  let burstScore : ℚ := ap.burstiness * (3/10)
  let cohScore : ℚ := coherence * (3/10)
  JSQ.min2 (.fin 1) ((coordScore.add (.fin burstScore)).add (.fin cohScore))

/-- analyzeCluster: edges within the cluster, activity pattern,
coherence and suspicion; the id embeds the clock and the random draw. -/
def analyzeCluster (clusterNodes : List String)
    (allNodes : List NetworkNode) (edges : List NetworkEdge)
    (now : ℤ) (rand : String) : Cluster :=
  let clusterEdges := edges.filter
    (fun e => decide (e.source ∈ clusterNodes) && decide (e.target ∈ clusterNodes))
  let activityPattern := calculateActivityPattern clusterNodes allNodes
  let coherence := calculateClusterCoherence clusterNodes clusterEdges
  { id := "cluster-" ++ toString now ++ "-" ++ rand
    nodes := clusterNodes
    coherence := coherence
    activityPattern := activityPattern
    suspicionScore := calculateSuspicionScore activityPattern coherence }

/-- detectClusters worker: scan nodes, expand unvisited components,
keep those of size at least 3. -/
def detectClustersGo (adj : List (String × List String))
    (allNodes : List NetworkNode) (edges : List NetworkEdge)
    (now : ℤ) (rand : String) :
    List NetworkNode → List String → List Cluster
  | [], _ => []
  | node :: rest, visited =>
      if node.accountId ∈ visited then
        detectClustersGo adj allNodes edges now rand rest visited
      else
        let res := bfsExpand adj (totalAdjSize adj + 2) [node.accountId] visited
        if res.1.length ≥ 3 then
          analyzeCluster res.1 allNodes edges now rand
            :: detectClustersGo adj allNodes edges now rand rest res.2
        else detectClustersGo adj allNodes edges now rand rest res.2

/-- detectClusters. -/
def detectClusters (nodes : List NetworkNode) (edges : List NetworkEdge)
    (now : ℤ) (rand : String) : List Cluster :=
  detectClustersGo (buildAdjacencyList nodes edges) nodes edges now rand nodes []

/-- calculateDegrees: endpoint counts (both directions). -/
def calculateDegrees (nodes : List NetworkNode) (edges : List NetworkEdge) :
    List (String × ℕ) :=
  let init : List (String × ℕ) := nodes.map (fun n => (n.accountId, 0))
  edges.foldl
    (fun m e =>
      let m := alistSet m e.source ((alistGet m e.source).getD 0 + 1)
      alistSet m e.target ((alistGet m e.target).getD 0 + 1))
    init

/-- bfsReach worker: count depth-1 and deeper reachable nodes and the
maximal BFS depth. -/
def bfsReachGo (adj : List (String × List String)) :
    ℕ → List (String × ℕ) → List String → ℕ → ℕ → ℕ → ℕ × ℕ × ℕ
  | 0, _, _, direct, indirect, maxDepth => (direct, indirect, maxDepth)
  | _ + 1, [], _, direct, indirect, maxDepth => (direct, indirect, maxDepth)
  | fuel + 1, (node, depth) :: rest, visited, direct, indirect, maxDepth =>
      if node ∈ visited then bfsReachGo adj fuel rest visited direct indirect maxDepth
      else
        let visited' := visited ++ [node]
        let direct' := if depth = 1 then direct + 1 else direct
        let indirect' := if depth > 1 then indirect + 1 else indirect
        let maxDepth' := max maxDepth depth
        let nbrs := (alistGet adj node).getD []
        let queue' := rest ++ (nbrs.filter (fun c => decide (c ∉ visited'))).map
          (fun nb => (nb, depth + 1))
        bfsReachGo adj fuel queue' visited' direct' indirect' maxDepth'

/-- bfsReach from one start node. -/
def bfsReach (start : String) (adj : List (String × List String)) : ℕ × ℕ × ℕ :=
  bfsReachGo adj (totalAdjSize adj + 2) [(start, 0)] [] 0 0 0

/-- calculateReach for every node. -/
def calculateReach (nodes : List NetworkNode) (edges : List NetworkEdge) :
    List (String × (ℕ × ℕ × ℕ)) :=
  let adj := buildAdjacencyList nodes edges
  nodes.map (fun n => (n.accountId, bfsReach n.accountId adj))

/-- calculateInfluenceScore: base (50 source / 10 spreader) + degree
component + reach component + early-spreader bonus.  Math.min and
Math.max over the spread edge array are the JSQ list extrema, so the
no-edge case follows the source through Infinity arithmetic into a
zero temporal factor. -/
def calculateInfluenceScore (node : NetworkNode) (degree : ℕ)
    (reach : ℕ × ℕ × ℕ) (edges : List NetworkEdge) : JSQ :=
  let baseInfluence : ℚ := if node.type = .source then 50 else 10
  let degreeFactor : ℚ := min ((degree : ℚ) / 10) 1 * 30
  let reachFactor : ℚ := ((reach.1 : ℚ) + (reach.2.1 : ℚ) * (1/2)) / 20 * 20
  let nodeEdges := edges.filter (fun e => decide (e.source = node.accountId))
  let avgTimestamp : ℚ :=
    if nodeEdges.length > 0 then
      ((nodeEdges.map (fun e => (e.timestamp : ℚ))).sum) / (nodeEdges.length : ℚ)
    else (node.timestamp : ℚ)
  let earliestTime := jsListMin (edges.map (fun e => (e.timestamp : ℚ)))
  let timeRange := (jsListMax (edges.map (fun e => (e.timestamp : ℚ)))).sub earliestTime
  let temporalFactor : JSQ :=
    if timeRange.gtB (.fin 0) then
      ((JSQ.fin 1).sub (((JSQ.fin avgTimestamp).sub earliestTime).div timeRange)).mul
        (.fin 20)
    else .fin 0
  (JSQ.fin (baseInfluence + degreeFactor + reachFactor)).add temporalFactor

/-- determineInfluencerRole. -/
def determineInfluencerRole (node : NetworkNode) (spreadData : SpreadData) :
    InfluencerRole :=
  if node.accountId = spreadData.originalTweet.authorId then .originator
  else if node.connections.length > 5 then .bridge
  else .amplifier

/-- identifyInfluencers: score every node, keep those above 10, sort
descending (the stable sort induced by the score comparator). -/
def identifyInfluencers (nodes : List NetworkNode) (edges : List NetworkEdge)
    (spreadData : SpreadData) : List InfluencerNode :=
  let degreeMap := calculateDegrees nodes edges
  let reachMap := calculateReach nodes edges
  let influencers := nodes.filterMap (fun node =>
    let degree := (alistGet degreeMap node.accountId).getD 0
    let reach := (alistGet reachMap node.accountId).getD (0, 0, 0)
    let influenceScore := calculateInfluenceScore node degree reach edges
    if influenceScore.gtB (.fin 10) then
      some { accountId := node.accountId
             influenceScore := influenceScore
             reachMetrics := { directReach := reach.1
                               indirectReach := reach.2.1
                               cascadeDepth := reach.2.2 }
             role := determineInfluencerRole node spreadData }
    else none)
  List.insertionSort
    (fun a b => (b.influenceScore.gtB a.influenceScore) = false) influencers

/-- findLeafNodes: nodes with no outgoing edge. -/
def findLeafNodes (nodes : List NetworkNode) (edges : List NetworkEdge) :
    List NetworkNode :=
  let hasOutgoing := edges.map (fun e => e.source)
  nodes.filter (fun n => decide (n.accountId ∉ hasOutgoing))

/-- findPath worker: reverse-adjacency breadth-first search carrying
the partial path, earliest-return on reaching the start. -/
def findPathGo (adjacencyMap : List (String × List String)) (start : String) :
    ℕ → List (String × List String) → List String → List String
  | 0, _, _ => []
  | _ + 1, [], _ => []
  | fuel + 1, (node, path) :: rest, visited =>
      if node = start then path.reverse
      else if node ∈ visited then findPathGo adjacencyMap start fuel rest visited
      else
        let visited' := visited ++ [node]
        let parents := (alistGet adjacencyMap node).getD []
        let queue' := rest ++ (parents.filter (fun p => decide (p ∉ visited'))).map
          (fun p => (p, path ++ [p]))
        findPathGo adjacencyMap start fuel queue' visited'

/-- findPath from the source to one leaf over reversed edges. -/
def findPath (start finish : String) (edges : List NetworkEdge) : List String :=
  let adjacencyMap := edges.foldl (fun m e => alistPush m e.target e.source) []
  findPathGo adjacencyMap start (totalAdjSize adjacencyMap + 2)
    [(finish, [finish])] []

/-- analyzeePath (sic): span, velocity and reach of one path.  The
callers guarantee every path id resolves to a node, so the lookup uses
filterMap; the extrema run over a nonempty timestamp list. -/
def analyzeePath (path : List String) (nodes : List NetworkNode) : PropagationPath :=
  let pathNodes := path.filterMap
    (fun id => nodes.find? (fun n => decide (n.accountId = id)))
  let timestamps := pathNodes.map (fun n => n.timestamp)
  let totalTime : ℤ :=
    timestamps.foldl max (timestamps.headD 0)
      - timestamps.foldl min (timestamps.headD 0)
  { nodes := path
    totalTime := totalTime
    velocity := (JSQ.fin (path.length : ℚ)).div (.fin ((totalTime : ℚ) / (1000 * 60)))
    reach := (pathNodes.map (fun n => n.connections.length)).sum }

/-- tracePropagationPaths: reconstruct a path to every leaf, keep the
top ten by reach (stable descending sort). -/
def tracePropagationPaths (nodes : List NetworkNode) (edges : List NetworkEdge)
    (spreadData : SpreadData) : List PropagationPath :=
  let sourceId := spreadData.originalTweet.authorId
  let leafNodes := findLeafNodes nodes edges
  let paths := leafNodes.filterMap (fun leaf =>
    let path := findPath sourceId leaf.accountId edges
    if path.length > 1 then some (analyzeePath path nodes) else none)
  (List.insertionSort (fun a b => b.reach ≤ a.reach) paths).take 10

/-- Count of adjacent pairs among a neighbour list (clustering
coefficient numerator). -/
def countAdjacentPairs (adj : List (String × List String)) :
    List String → ℕ
  | [] => 0
  | x :: t =>
      (t.filter (fun y => decide (y ∈ (alistGet adj x).getD []))).length
        + countAdjacentPairs adj t

/-- calculateClusteringCoefficient: mean local density over nodes with
at least two neighbours. -/
def calculateClusteringCoefficient (nodes : List NetworkNode)
    (edges : List NetworkEdge) : ℚ :=
  let adj := buildAdjacencyList nodes edges
  let contributions := nodes.filterMap (fun node =>
    let neighbors := (alistGet adj node.accountId).getD []
    if neighbors.length ≥ 2 then
      let possibleEdges : ℚ := ((neighbors.length : ℚ) * ((neighbors.length : ℚ) - 1)) / 2
      some ((countAdjacentPairs adj neighbors : ℚ) / possibleEdges)
    else none)
  if contributions.length > 0 then
    contributions.sum / (contributions.length : ℚ)
  else 0

/-- calculateDensity with its n < 2 guard. -/
def calculateDensity (nodeCount edgeCount : ℕ) : ℚ :=
  if nodeCount < 2 then 0
  else (edgeCount : ℚ) / (((nodeCount : ℚ) * ((nodeCount : ℚ) - 1)) / 2)

/-- calculateNetworkMetrics; averageDegree is NaN on an empty node
list, exactly as in JS, hence the JSQ division. -/
def calculateNetworkMetrics (nodes : List NetworkNode)
    (edges : List NetworkEdge) : NetworkMetrics :=
  let degrees := calculateDegrees nodes edges
  let totalDegree := (degrees.map (fun p => p.2)).sum
  { totalNodes := nodes.length
    totalEdges := edges.length
    density := calculateDensity nodes.length edges.length
    averageDegree := (JSQ.fin (totalDegree : ℚ)).div (.fin (nodes.length : ℚ))
    clusteringCoefficient := calculateClusteringCoefficient nodes edges
    modularity := 1/2 }

/-- analyzeNetwork: the full network analysis (the analysisId is only
consumed by the omitted storage layer). -/
def analyzeNetwork (spreadData : SpreadData) (_analysisId : String)
    (now : ℤ) (rand : String) : NetworkAnalysis :=
  let g := buildNetworkGraph spreadData
  { nodes := g.1
    edges := g.2
    clusters := detectClusters g.1 g.2 now rand
    influencers := identifyInfluencers g.1 g.2 spreadData
    propagationPaths := tracePropagationPaths g.1 g.2 spreadData
    metrics := calculateNetworkMetrics g.1 g.2 }

/-! ## CoordinationDetector (src/backend/src/analyzers/CoordinationDetector.ts)

Temporal, content and network detectors over raw SpreadEvent lists,
followed by the merge pass.  None of the computations read the clock;
the storage calls are omitted. -/

def timeWindowThreshold : ℤ := 3 * 60 * 1000

/-- Place one event into the first bucket within the three-minute
threshold of its anchor (JS Map iteration order), else open a new
bucket keyed by the event time. -/
def timeGroupInsert (a : SpreadEvent) :
    List (ℤ × List SpreadEvent) → List (ℤ × List SpreadEvent)
  | [] => [(a.timestamp, [a])]
  | (k, g) :: t =>
      if |a.timestamp - k| ≤ timeWindowThreshold then (k, g ++ [a]) :: t
      else (k, g) :: timeGroupInsert a t

/-- groupByTimeWindow: sort by timestamp (stable), then greedy
bucketing. -/
def groupByTimeWindow (activities : List SpreadEvent) :
    List (ℤ × List SpreadEvent) :=
  let sorted := List.insertionSort (fun a b => a.timestamp ≤ b.timestamp) activities
  sorted.foldl (fun groups a => timeGroupInsert a groups) []

/-- JS String.split(/\s+/): tokens are maximal non-whitespace runs,
with an empty token for a leading or trailing whitespace run, and [""]
for the empty string. -/
def jsSplitWS (s : String) : List String :=
  let cs := s.toList
  if cs.isEmpty then [""]
  else
    let tokens := (cs.splitOnP (fun c => c.isWhitespace)).filter
      (fun t => ¬ t.isEmpty) |>.map (fun t => String.mk t)
    (if (cs.headD ' ').isWhitespace then [""] else [])
      ++ tokens
      ++ (if (cs.getLastD ' ').isWhitespace then [""] else [])

/-- calculateContentSimilarity: Jaccard similarity of lower-cased
whitespace tokens; 0 when either content is absent or empty (JS
falsiness of the empty string). -/
def calculateContentSimilarity (a b : SpreadEvent) : ℚ :=
  let ca := (a.content.getD "")
  let cb := (b.content.getD "")
  if ca = "" ∨ cb = "" then 0
  else
    let wordsA := listDedup (jsSplitWS ca.toLower)
    let wordsB := listDedup (jsSplitWS cb.toLower)
    let intersection := wordsA.filter (fun x => decide (x ∈ wordsB))
    let union := listDedup (wordsA ++ wordsB)
    if union.length > 0 then
      (intersection.length : ℚ) / (union.length : ℚ)
    else 0

def contentSimilarityThreshold : ℚ := 8 / 10

/-- Inner scan of groupBySimilarContent: collect unused later events
similar to the group seed. -/
def gbscInner (seed : SpreadEvent) :
    List SpreadEvent → List SpreadEvent → List String →
    List SpreadEvent × List String
  | [], group, used => (group, used)
  | b :: rest, group, used =>
      if b.id ∈ used then gbscInner seed rest group used
      else if calculateContentSimilarity seed b ≥ contentSimilarityThreshold then
        gbscInner seed rest (group ++ [b]) (used ++ [b.id])
      else gbscInner seed rest group used

/-- Outer scan of groupBySimilarContent; only groups of size at least
three are kept, and the used-set additions persist either way. -/
def gbscOuter : List SpreadEvent → List String → List (List SpreadEvent)
  | [], _ => []
  | a :: rest, used =>
      if a.id ∈ used then gbscOuter rest used
      else
        let r := gbscInner a rest [a] (used ++ [a.id])
        if r.1.length ≥ 3 then r.1 :: gbscOuter rest r.2
        else gbscOuter rest r.2

/-- groupBySimilarContent. -/
def groupBySimilarContent (activities : List SpreadEvent) :
    List (List SpreadEvent) :=
  gbscOuter activities []

/-- calculateTimeWindow: spread extrema of the event timestamps (the
JS Date constructor applied to them is kept as the raw extremum). -/
def calculateTimeWindow (activities : List SpreadEvent) : JSQ × JSQ :=
  let ts := activities.map (fun a => (a.timestamp : ℚ))
  (jsListMin ts, jsListMax ts)

/-- calculateTimeSpread: extent normalized to one hour, capped at 1. -/
def calculateTimeSpread (activities : List SpreadEvent) : JSQ :=
  let ts := activities.map (fun a => (a.timestamp : ℚ))
  let spread := (jsListMax ts).sub (jsListMin ts)
  JSQ.min2 (.fin 1) (spread.div (.fin (60 * 60 * 1000)))

/-- calculateAccountDiversity: distinct accounts over event count (NaN
on an empty list, as in JS). -/
def calculateAccountDiversity (activities : List SpreadEvent) : JSQ :=
  (JSQ.fin ((jsDedup (activities.map (fun a => a.sourceAccountId))).length : ℚ)).div
    (.fin (activities.length : ℚ))

/-- CoordinationDetector.calculateBurstiness: coefficient of variation
of inter-event intervals, capped at 1; NaN when every event shares one
timestamp (zero mean interval). -/
def calculateBurstinessCD (activities : List SpreadEvent) : JSQ :=
  let timestamps := List.insertionSort (fun a b => a ≤ b)
    (activities.map (fun a => a.timestamp))
  if timestamps.length < 2 then .fin 0
  else
    let intervals := consecutiveDiffs timestamps
    let mean : ℚ := ((intervals.map (fun i => (i : ℚ))).sum) / (intervals.length : ℚ)
    let variance : ℚ :=
      ((intervals.map (fun i => ((i : ℚ) - mean) ^ 2)).sum) / (intervals.length : ℚ)
    let cv := (JSQ.sqrt (.fin variance)).div (.fin mean)
    JSQ.min2 (.fin 1) cv

/-- calculateTemporalConfidence. -/
def calculateTemporalConfidence (activities : List SpreadEvent) : JSQ :=
  let timeSpread := calculateTimeSpread activities
  let accountDiversity := calculateAccountDiversity activities
  let burstiness := calculateBurstinessCD activities
  ((((JSQ.fin 1).sub timeSpread).mul (.fin (4/10))).add
      (((JSQ.fin 1).sub accountDiversity).mul (.fin (3/10)))).add
    (burstiness.mul (.fin (3/10)))

/-- calculateAverageContentSimilarity: mean over all ordered pairs
i < j. -/
def calculateAverageContentSimilarity (activities : List SpreadEvent) : ℚ :=
  if activities.length < 2 then 0
  else
    let pairs := activities.tails.flatMap
      (fun t => match t with
        | [] => []
        | x :: rest => rest.map (fun y => calculateContentSimilarity x y))
    if pairs.length > 0 then pairs.sum / (pairs.length : ℚ) else 0

/-- calculateContentConfidence. -/
def calculateContentConfidence (activities : List SpreadEvent) : JSQ :=
  let avgSimilarity := calculateAverageContentSimilarity activities
  let accountDiversity := calculateAccountDiversity activities
  (JSQ.fin (avgSimilarity * (7/10))).add
    (((JSQ.fin 1).sub accountDiversity).mul (.fin (3/10)))

/-- calculateActivityDensity: average events per account over ten,
capped at 1 (the average divides by the account-list length). -/
def calculateActivityDensity (activities : List SpreadEvent)
    (accounts : List String) : JSQ :=
  let avgActivities := (JSQ.fin (activities.length : ℚ)).div
    (.fin (accounts.length : ℚ))
  JSQ.min2 (.fin 1) (avgActivities.div (.fin 10))

/-- calculateAccountConsistency: 1 - type diversity. -/
def calculateAccountConsistency (activities : List SpreadEvent) : ℚ :=
  let types := activities.map (fun a => a.type)
  1 - ((listDedup types).length : ℚ) / (types.length : ℚ)

/-- calculateBehaviorConsistency: mean consistency over accounts with
at least two events. -/
def calculateBehaviorConsistency (activities : List SpreadEvent) : ℚ :=
  let accountActivities := activities.foldl
    (fun m a => alistSet m a.sourceAccountId
      ((alistGet m a.sourceAccountId).getD [] ++ [a]))
    ([] : List (String × List SpreadEvent))
  let consistencies := accountActivities.filterMap
    (fun p => if p.2.length ≥ 2 then some (calculateAccountConsistency p.2) else none)
  if consistencies.length > 0 then
    consistencies.sum / (consistencies.length : ℚ)
  else 0

/-- calculateNetworkConfidence. -/
def calculateNetworkConfidence (activities : List SpreadEvent)
    (accounts : List String) : JSQ :=
  let density := calculateActivityDensity activities accounts
  let consistency := calculateBehaviorConsistency activities
  (density.mul (.fin (6/10))).add (.fin (consistency * (4/10)))

/-- generateTemporalEvidence. -/
def generateTemporalEvidence (activities : List SpreadEvent) :
    List CoordinationEvidence :=
  (groupByTimeWindow activities).filterMap (fun p =>
    if p.2.length ≥ 2 then
      some { type := "temporal_synchronization"
             description := toString p.2.length
               ++ " accounts acted within 180 seconds"
             accounts := jsDedup (p.2.map (fun a => a.sourceAccountId))
             timestamp := p.1
             strength := min 1 ((p.2.length : ℚ) / 10) }
    else none)

/-- generateContentEvidence. -/
def generateContentEvidence (activities : List SpreadEvent) :
    List CoordinationEvidence :=
  (groupBySimilarContent activities).filterMap (fun g =>
    if g.length ≥ 2 then
      some { type := "content_similarity"
             description := toString g.length ++ " accounts posted similar content"
             accounts := jsDedup (g.map (fun a => a.sourceAccountId))
             timestamp := (g.map (fun a => a.timestamp)).headD 0
             strength := min 1 ((g.length : ℚ) / 10) }
    else none)

/-- generateNetworkEvidence (the callers pass nonempty activity lists,
so the head lookup is total here). -/
def generateNetworkEvidence (activities : List SpreadEvent)
    (accounts : List String) : List CoordinationEvidence :=
  [ { type := "network_cluster"
      description := "Cluster of " ++ toString accounts.length
        ++ " interconnected accounts detected"
      accounts := accounts
      timestamp := (activities.map (fun a => a.timestamp)).headD 0
      strength := min 1 ((accounts.length : ℚ) / 20) } ]

/-- createTemporalPattern. -/
def createTemporalPattern (activities : List SpreadEvent)
    (accounts : List String) : CoordinationPattern :=
  { accounts := accounts
    type := .temporal
    confidence := calculateTemporalConfidence activities
    evidence := generateTemporalEvidence activities
    timeWindow := calculateTimeWindow activities }

/-- createContentPattern. -/
def createContentPattern (activities : List SpreadEvent)
    (accounts : List String) : CoordinationPattern :=
  { accounts := accounts
    type := .content
    confidence := calculateContentConfidence activities
    evidence := generateContentEvidence activities
    timeWindow := calculateTimeWindow activities }

/-- createNetworkPattern. -/
def createNetworkPattern (activities : List SpreadEvent)
    (accounts : List String) : CoordinationPattern :=
  { accounts := accounts
    type := .network
    confidence := calculateNetworkConfidence activities accounts
    evidence := generateNetworkEvidence activities accounts
    timeWindow := calculateTimeWindow activities }

/-- detectTemporalCoordination: buckets with at least three events
from at least three distinct accounts become temporal patterns. -/
def detectTemporalCoordination (activities : List SpreadEvent) :
    List CoordinationPattern :=
  (groupByTimeWindow activities).filterMap (fun p =>
    if p.2.length ≥ 3 then
      let uniqueAccounts := jsDedup (p.2.map (fun a => a.sourceAccountId))
      if uniqueAccounts.length ≥ 3 then
        some (createTemporalPattern p.2 uniqueAccounts)
      else none
    else none)

/-- detectContentCoordination. -/
def detectContentCoordination (activities : List SpreadEvent) :
    List CoordinationPattern :=
  (groupBySimilarContent activities).filterMap (fun g =>
    if g.length ≥ 3 then
      let uniqueAccounts := jsDedup (g.map (fun a => a.sourceAccountId))
      if uniqueAccounts.length ≥ 3 then
        some (createContentPattern g uniqueAccounts)
      else none
    else none)

/-- Adjacency of findNetworkClusters: accounts acting on the same
target post are linked. -/
def networkAdjacency (activities : List SpreadEvent) :
    List (String × List String) :=
  activities.foldl
    (fun m a =>
      let m := match alistGet m a.sourceAccountId with
        | some _ => m
        | none => alistSet m a.sourceAccountId []
      let related := activities.filter (fun b =>
        decide (b.targetTweetId = a.targetTweetId)
          && decide (b.sourceAccountId ≠ a.sourceAccountId))
      related.foldl (fun m r => alistAddMem m a.sourceAccountId r.sourceAccountId) m)
    []

/-- calculateClusterDensity over the interaction adjacency. -/
def calculateClusterDensity (cluster : List String)
    (adjacencyMap : List (String × List String)) : ℚ :=
  let edges := (cluster.map (fun account =>
    (((alistGet adjacencyMap account).getD []).filter
      (fun conn => decide (conn ∈ cluster))).length)).sum
  let n := cluster.length
  let possibleEdges : ℚ := (n : ℚ) * ((n : ℚ) - 1)
  if possibleEdges > 0 then (edges : ℚ) / possibleEdges else 0

/-- findNetworkClusters worker over the adjacency entries. -/
def findNetworkClustersGo (adj : List (String × List String)) :
    List (String × List String) → List String →
    List (List String × ℚ)
  | [], _ => []
  | (account, connections) :: rest, visited =>
      if account ∉ visited ∧ connections.length ≥ 2 then
        let r := bfsExpand adj (totalAdjSize adj + 2) [account] visited
        if r.1.length ≥ 3 then
          (r.1, calculateClusterDensity r.1 adj) :: findNetworkClustersGo adj rest r.2
        else findNetworkClustersGo adj rest r.2
      else findNetworkClustersGo adj rest visited

/-- findNetworkClusters. -/
def findNetworkClusters (activities : List SpreadEvent) :
    List (List String × ℚ) :=
  let adj := networkAdjacency activities
  findNetworkClustersGo adj adj []

/-- detectNetworkCoordination: components of size at least three become
network patterns over their members' activities. -/
def detectNetworkCoordination (activities : List SpreadEvent) :
    List CoordinationPattern :=
  (findNetworkClusters activities).filterMap (fun cluster =>
    if cluster.1.length ≥ 3 then
      let clusterActivities := activities.filter
        (fun a => decide (a.sourceAccountId ∈ cluster.1))
      some (createNetworkPattern clusterActivities cluster.1)
    else none)

/-- Merge-pass inner scan: absorb every later unused pattern sharing at
least minGroupSize - 1 = 2 accounts with the growing account set. -/
def mergeInner : List (ℕ × CoordinationPattern) → List String →
    List CoordinationEvidence → List ℕ →
    List String × List CoordinationEvidence × List ℕ
  | [], accSet, ev, used => (accSet, ev, used)
  | (j, p) :: rest, accSet, ev, used =>
      if j ∈ used then mergeInner rest accSet ev used
      else
        let overlap := p.accounts.filter (fun a => decide (a ∈ accSet))
        if overlap.length ≥ 2 then
          mergeInner rest (listAddAll accSet p.accounts) (ev ++ p.evidence)
            (used ++ [j])
        else mergeInner rest accSet ev used

/-- Merge-pass outer scan.  The confidence takes Math.max over the
base and every pattern whose index is in the used set at push time —
which, as in the source, is the set accumulated across all groups so
far, not only the current group. -/
def mergeOuter (allP : List (ℕ × CoordinationPattern)) :
    List (ℕ × CoordinationPattern) → List ℕ → List CoordinationPattern
  | [], _ => []
  | (i, p) :: rest, used =>
      if i ∈ used then mergeOuter allP rest used
      else
        let r := mergeInner rest (jsDedup p.accounts) p.evidence used
        let confs := (allP.filter (fun q => decide (q.1 ∈ r.2.2))).map
          (fun q => q.2.confidence)
        { p with accounts := r.1, type := .mixed, evidence := r.2.1
                 confidence := confs.foldl JSQ.max2 p.confidence }
          :: mergeOuter allP rest r.2.2

/-- mergePatterns. -/
def mergePatterns (patterns : List CoordinationPattern) :
    List CoordinationPattern :=
  mergeOuter patterns.enum patterns.enum []

/-- detectCoordination: the three detectors then the merge pass (the
analysisId only reaches the omitted storage calls). -/
def detectCoordination (activities : List SpreadEvent)
    (_analysisId : String) : List CoordinationPattern :=
  mergePatterns
    (detectTemporalCoordination activities
      ++ detectContentCoordination activities
      ++ detectNetworkCoordination activities)

/-! ## AnomalyDetector (src/backend/src/analyzers/AnomalyDetector.ts)

Volume spikes, temporal regularity, behaviour changes and network
anomalies over a timeline, then deduplication and ranking.  new Date()
and Date.now() become the parameter now; storage is omitted. -/

/-- JS comparison a >= b; false whenever NaN is involved. -/
def JSQ.geB : JSQ → JSQ → Bool
  | .fin a, .fin b => decide (a ≥ b)
  | .nan, _ => false
  | _, .nan => false
  | .pinf, _ => true
  | _, .pinf => false
  | _, .ninf => true
  | .ninf, _ => false

/-- Number.prototype.toFixed(1) on a rational, rounding half away from
zero (equal to JS on every value reached here). -/
def ratToFixed1 (q : ℚ) : String :=
  let n : ℤ := if q < 0 then -Int.floor (-q * 10 + 1/2) else Int.floor (q * 10 + 1/2)
  let m := n.natAbs
  (if n < 0 then "-" else "") ++ toString (m / 10) ++ "." ++ toString (m % 10)

/-- Number.prototype.toFixed(2) on a rational. -/
def ratToFixed2 (q : ℚ) : String :=
  let n : ℤ := if q < 0 then -Int.floor (-q * 100 + 1/2) else Int.floor (q * 100 + 1/2)
  let m := n.natAbs
  (if n < 0 then "-" else "") ++ toString (m / 100) ++ "."
    ++ (if m % 100 < 10 then "0" else "") ++ toString (m % 100)

/-- toFixed(2) lifted to JS values. -/
def jsToFixed2 : JSQ → String
  | .fin q => ratToFixed2 q
  | .nan => "NaN"
  | .pinf => "Infinity"
  | .ninf => "-Infinity"

def anomalyTypeStr : AnomalyType → String
  | .spike => "spike"
  | .pattern => "pattern"
  | .behavior => "behavior"
  | .network => "network"

def severityStr : Severity → String
  | .low => "low"
  | .medium => "medium"
  | .high => "high"
  | .critical => "critical"

/-- getSeverityScore. -/
def getSeverityScore (a : Anomaly) : ℕ :=
  match a.severity with
  | .critical => 4
  | .high => 3
  | .medium => 2
  | .low => 1

/-- calculateVolumeByWindow: event counts per 5-minute window, keyed
by window start, in first-occurrence order. -/
def calculateVolumeByWindow (timeline : List TimelineEvent)
    (windowSize : ℤ) : List (ℤ × ℕ) :=
  timeline.foldl
    (fun m e =>
      let windowStart := (e.timestamp.fdiv windowSize) * windowSize
      alistSet m windowStart ((alistGet m windowStart).getD 0 + 1))
    []

/-- calculateStatistics: mean and standard deviation (0, 0) on empty
input. -/
def calculateStatistics (values : List ℚ) : ℚ × ℚ :=
  if values.length = 0 then (0, 0)
  else
    let mean := values.sum / (values.length : ℚ)
    let variance := ((values.map (fun v => (v - mean) ^ 2)).sum) / (values.length : ℚ)
    (mean, ratSqrt variance)

/-- calculateSpikeSeverity from the z-score magnitude. -/
def calculateSpikeSeverity (zScore : JSQ) : Severity :=
  let absZ := zScore.abs
  if absZ.geB (.fin 5) then .critical
  else if absZ.geB (.fin 4) then .high
  else if absZ.geB (.fin 3) then .medium
  else .low

/-- The z-score of one window: deviation from the mean over the
standard deviation, with no zero guard — a constant volume profile
gives 0 / 0 = NaN. -/
def volumeZScore (volume : ℕ) (stats : ℚ × ℚ) : JSQ :=
  (JSQ.fin ((volume : ℚ) - stats.1)).div (.fin stats.2)

/-- detectVolumeSpikes: windows whose |z| exceeds 3 become spike
anomalies. -/
def detectVolumeSpikes (timeline : List TimelineEvent) : List Anomaly :=
  let windowSize : ℤ := 5 * 60 * 1000
  let volumeByWindow := calculateVolumeByWindow timeline windowSize
  let stats := calculateStatistics (volumeByWindow.map (fun p => ((p.2 : ℚ))))
  volumeByWindow.filterMap (fun p =>
    let zScore := volumeZScore p.2 stats
    if (zScore.abs).gtB (.fin 3) then
      let affectedEvents := timeline.filter
        (fun e => decide (|e.timestamp - p.1| ≤ windowSize / 2))
      some { id := "spike-" ++ toString p.1
             type := .spike
             severity := calculateSpikeSeverity zScore
             timestamp := p.1
             description := "Unusual "
               ++ (if zScore.gtB (.fin 0) then "spike" else "drop")
               ++ " in activity: " ++ toString p.2 ++ " events ("
               ++ jsToFixed2 zScore ++ " std devs from mean)"
             affectedAccounts := jsDedup (affectedEvents.map (fun e => e.accountId))
             metrics := { deviation := zScore
                          baseline := .fin stats.1
                          observed := .fin (p.2 : ℚ)
                          confidence := JSQ.min2 (.fin (99/100))
                            ((zScore.abs).div (.fin 5)) } }
    else none)

/-- calculateRegularity: 1 - coefficient of variation, floored at 0,
with explicit guards for short inputs and a zero mean. -/
def calculateRegularity (intervals : List ℤ) : ℚ :=
  if intervals.length < 2 then 0
  else
    let stats := calculateStatistics (intervals.map (fun i => (i : ℚ)))
    if stats.1 = 0 then 0
    else max 0 (1 - stats.2 / stats.1)

/-- detectTemporalPatterns: accounts with at least five events and
regularity above 0.8.  calculateIntervals sorts the stored event array
in place, so the anomaly timestamp reads the earliest event. -/
def detectTemporalPatterns (timeline : List TimelineEvent) (now : ℤ) :
    List Anomaly :=
  let accountEvents := timeline.foldl
    (fun m e => alistSet m e.accountId ((alistGet m e.accountId).getD [] ++ [e]))
    ([] : List (String × List TimelineEvent))
  accountEvents.filterMap (fun p =>
    if p.2.length < 5 then none
    else
      let sorted := List.insertionSort
        (fun a b => a.timestamp ≤ b.timestamp) p.2
      let intervals := consecutiveDiffs (sorted.map (fun e => e.timestamp))
      let regularityScore := calculateRegularity intervals
      if regularityScore > 8/10 then
        some { id := "pattern-" ++ p.1 ++ "-" ++ toString now
               type := .pattern
               severity := .medium
               timestamp := (sorted.map (fun e => e.timestamp)).headD 0
               description := "Account " ++ p.1
                 ++ " shows suspiciously regular activity patterns (regularity: "
                 ++ ratToFixed1 (regularityScore * 100) ++ "%)"
               affectedAccounts := [p.1]
               metrics := { deviation := .fin regularityScore
                            baseline := .fin (1/2)
                            observed := .fin regularityScore
                            confidence := .fin (7/10) } }
      else none)

/-- splitIntoWindows worker. -/
def splitWindowsGo (windowSize : ℤ) :
    List TimelineEvent → List (List TimelineEvent) → List TimelineEvent → ℤ →
    List (List TimelineEvent)
  | [], windows, currentWindow, _ =>
      if currentWindow.length > 0 then windows ++ [currentWindow] else windows
  | e :: rest, windows, currentWindow, windowStart =>
      if e.timestamp - windowStart > windowSize then
        splitWindowsGo windowSize rest
          (if currentWindow.length > 0 then windows ++ [currentWindow] else windows)
          [e] e.timestamp
      else splitWindowsGo windowSize rest windows (currentWindow ++ [e]) windowStart

/-- splitIntoWindows: greedy 10-minute windows over the sorted events. -/
def splitIntoWindows (events : List TimelineEvent) (windowSize : ℤ) :
    List (List TimelineEvent) :=
  let sorted := List.insertionSort (fun a b => a.timestamp ≤ b.timestamp) events
  splitWindowsGo windowSize sorted [] []
    ((sorted.map (fun e => e.timestamp)).headD 0)

/-- compareBehavior: flag a rate change above 2x (5x: high). -/
def compareBehavior (window1 window2 : List TimelineEvent) : Option Anomaly :=
  let rate1 := window1.length
  let rate2 := window2.length
  let rateChange : ℚ := |(rate2 : ℚ) - (rate1 : ℚ)| / max (rate1 : ℚ) 1
  if rateChange > 2 then
    some { id := ""
           type := .behavior
           severity := if rateChange > 5 then .high else .medium
           timestamp := (window2.map (fun e => e.timestamp)).headD 0
           description := "Sudden change in activity rate: " ++ toString rate1
             ++ " → " ++ toString rate2 ++ " events"
           affectedAccounts := jsDedup (window2.map (fun e => e.accountId))
           metrics := { deviation := .fin rateChange
                        baseline := .fin (rate1 : ℚ)
                        observed := .fin (rate2 : ℚ)
                        confidence := .fin (7/10) } }
  else none

/-- detectBehaviorChanges: compare consecutive 10-minute windows; no
output below ten events. -/
def detectBehaviorChanges (events : List TimelineEvent) : List Anomaly :=
  if events.length < 10 then []
  else
    let windows := splitIntoWindows events (10 * 60 * 1000)
    (windows.zip windows.tail).filterMap (fun p => compareBehavior p.1 p.2)

/-- detectBehaviorAnomalies: events grouped by (type, cascadeDepth);
each flagged change carries an id embedding the group key and its
window timestamp. -/
def detectBehaviorAnomalies (timeline : List TimelineEvent) : List Anomaly :=
  let behaviorGroups := timeline.foldl
    (fun m e =>
      let key := e.type ++ "-" ++ toString e.cascadeDepth
      alistSet m key ((alistGet m key).getD [] ++ [e]))
    ([] : List (String × List TimelineEvent))
  behaviorGroups.flatMap (fun p =>
    (detectBehaviorChanges p.2).map (fun change =>
      { change with
          id := "behavior-" ++ p.1 ++ "-" ++ toString change.timestamp }))

/-- detectNetworkAnomalies: deep cascades (depth above 10) and star
patterns (a depth-0 event with more than 20 depth-1 children inside 60
seconds); both anomalies are stamped with the wall clock. -/
def detectNetworkAnomalies (timeline : List TimelineEvent) (now : ℤ) :
    List Anomaly :=
  let maxDepth : ℕ := (timeline.map (fun e => e.cascadeDepth)).foldl max 0
  let deep : List Anomaly :=
    if maxDepth > 10 then
      [ { id := "network-depth-" ++ toString now
          type := .network
          severity := .high
          timestamp := now
          description := "Unusually deep cascade detected (depth: "
            ++ toString maxDepth ++ ")"
          affectedAccounts := (timeline.filter
            (fun e => decide (e.cascadeDepth ≥ maxDepth - 2))).map
              (fun e => e.accountId)
          metrics := { deviation := .fin (maxDepth : ℚ)
                       baseline := .fin 5
                       observed := .fin (maxDepth : ℚ)
                       confidence := .fin (8/10) } } ]
    else []
  let triggerCounts := timeline.foldl
    (fun m e =>
      if e.cascadeDepth = 0 then
        let count := (timeline.filter (fun e2 =>
          decide (e2.cascadeDepth = 1)
            && decide (|e2.timestamp - e.timestamp| < 60000))).length
        alistSet m e.accountId count
      else m)
    ([] : List (String × ℕ))
  let stars := triggerCounts.filterMap (fun p =>
    if p.2 > 20 then
      some { id := "network-star-" ++ p.1
             type := .network
             severity := .high
             timestamp := now
             description := "Star pattern detected: " ++ p.1 ++ " triggered "
               ++ toString p.2 ++ " immediate responses"
             affectedAccounts := [p.1]
             metrics := { deviation := .fin (p.2 : ℚ)
                          baseline := .fin 5
                          observed := .fin (p.2 : ℚ)
                          confidence := .fin (9/10) } }
    else none)
  deep ++ stars

/-- The deduplication key: type, the affected account list joined with
commas in stored order, and the minute-rounded timestamp. -/
def dedupKey (a : Anomaly) : String :=
  anomalyTypeStr a.type ++ "-" ++ String.intercalate "," a.affectedAccounts
    ++ "-" ++ toString (a.timestamp.fdiv 60000)

/-- The ranking score: severity rank times confidence. -/
def anomalyScore (a : Anomaly) : JSQ :=
  (JSQ.fin (getSeverityScore a : ℚ)).mul a.metrics.confidence

/-- One step of the keyed deduplication loop: first writer wins its
slot unless a strictly higher severity arrives. -/
def anomalyDedupStep (m : List (String × Anomaly)) (a : Anomaly) :
    List (String × Anomaly) :=
  let k := dedupKey a
  match alistGet m k with
  | none => alistSet m k a
  | some b => if getSeverityScore a > getSeverityScore b then alistSet m k a else m

/-- The keyed deduplication map. -/
def anomalyDedup (anomalies : List Anomaly) : List (String × Anomaly) :=
  anomalies.foldl anomalyDedupStep []

/-- prioritizeAnomalies: deduplicate, then stable-sort descending by
severity times confidence. -/
def prioritizeAnomalies (anomalies : List Anomaly) : List Anomaly :=
  List.insertionSort
    (fun a b => ((anomalyScore b).gtB (anomalyScore a)) = false)
    ((anomalyDedup anomalies).map (fun p => p.2))

/-- detectAnomalies: the guard returns an empty list below ten events;
otherwise the four detectors run over the time-sorted timeline and the
results are deduplicated and ranked (analysisId only reaches the
omitted storage). -/
def detectAnomalies (timeline : List TimelineEvent) (_analysisId : String)
    (now : ℤ) : List Anomaly :=
  if timeline.length < 10 then []
  else
    let sortedTimeline := List.insertionSort
      (fun a b => a.timestamp ≤ b.timestamp) timeline
    prioritizeAnomalies
      (detectVolumeSpikes sortedTimeline
        ++ detectTemporalPatterns sortedTimeline now
        ++ detectBehaviorAnomalies sortedTimeline
        ++ detectNetworkAnomalies sortedTimeline now)

/-! ## AnalysisEngine (src/backend/src/analyzers/AnalysisEngine.ts)

The orchestrator: derive accounts / activities / timeline from the
SpreadData, run the four analyzers, build the summary.  Status updates
and result storage are external collaborators and omitted. -/

structure SummaryMetrics where
  totalAccounts : ℕ
  totalInteractions : ℕ
  networkDensity : ℚ
  clusteringCoefficient : ℚ
deriving DecidableEq

structure SummaryBots where
  confirmed : ℕ
  suspicious : ℕ
  percentage : JSQ
deriving DecidableEq

structure SummaryCoordination where
  patternsDetected : ℕ
  highConfidence : ℕ
  totalAccountsInvolved : ℕ
deriving DecidableEq

structure SummaryAnomalies where
  total : ℕ
  critical : ℕ
  high : ℕ
  medium : ℕ
deriving DecidableEq

structure TopInfluencer where
  accountId : String
  score : JSQ
  role : InfluencerRole
deriving DecidableEq

structure AnalysisSummary where
  timestamp : ℤ
  metrics : SummaryMetrics
  botAnalysis : SummaryBots
  coordination : SummaryCoordination
  anomalies : SummaryAnomalies
  topInfluencers : List TopInfluencer
deriving DecidableEq

structure FullAnalysisResult where
  network : NetworkAnalysis
  bots : List BotDetectionResult
  coordination : List CoordinationPattern
  anomalies : List Anomaly
  summary : AnalysisSummary
deriving DecidableEq

/-- extractAccounts: the original author then every event author, in
order, keyed by account id. -/
def extractAccounts (spreadData : SpreadData) : List Account :=
  let m : List (String × Account) :=
    match spreadData.originalTweet.author with
    | some a => [(a.id, a)]
    | none => []
  let items := spreadData.retweets ++ spreadData.quotes ++ spreadData.replies
  (items.foldl
    (fun m item =>
      match item.author with
      | some a => alistSet m a.id a
      | none => m)
    m).map (fun p => p.2)

/-- extractActivities: retweets and quotes become SpreadEvents (the
source converts no replies). -/
def extractActivities (spreadData : SpreadData) : List SpreadEvent :=
  spreadData.retweets.map (fun rt =>
    { id := rt.id, type := .retweet, sourceAccountId := rt.authorId
      targetTweetId := spreadData.originalTweet.id, timestamp := rt.createdAt
      cascadeDepth := rt.cascadeDepth, content := rt.text })
  ++ spreadData.quotes.map (fun qt =>
    { id := qt.id, type := .quote, sourceAccountId := qt.authorId
      targetTweetId := spreadData.originalTweet.id, timestamp := qt.createdAt
      cascadeDepth := qt.cascadeDepth, content := qt.text })

/-- extractTimeline: the original event (depth 0) then retweets and
quotes (depth 1), with sequential numeric string ids. -/
def extractTimeline (spreadData : SpreadData) : List TimelineEvent :=
  let base : List TimelineEvent :=
    { id := "", timestamp := spreadData.originalTweet.createdAt
      type := "original", accountId := spreadData.originalTweet.authorId
      cascadeDepth := 0 }
    :: spreadData.retweets.map (fun rt =>
        { id := "", timestamp := rt.createdAt, type := "retweet"
          accountId := rt.authorId, cascadeDepth := 1 })
    ++ spreadData.quotes.map (fun qt =>
        { id := "", timestamp := qt.createdAt, type := "quote"
          accountId := qt.authorId, cascadeDepth := 1 })
  base.enum.map (fun p => { p.2 with id := toString p.1 })

/-- generateSummary.  The bot percentage divides by the node count as
JS does (NaN on an empty graph, which analyzeNetwork never returns). -/
def generateSummary (network : NetworkAnalysis)
    (bots : List BotDetectionResult)
    (coordination : List CoordinationPattern)
    (anomalies : List Anomaly) (now : ℤ) : AnalysisSummary :=
  let botCount := (bots.filter (fun b => decide (b.classification = .bot))).length
  let suspiciousCount := (bots.filter (fun b =>
    decide (b.classification = .cyborg) || decide (b.classification = .uncertain))).length
  { timestamp := now
    metrics := { totalAccounts := network.nodes.length
                 totalInteractions := network.edges.length
                 networkDensity := network.metrics.density
                 clusteringCoefficient := network.metrics.clusteringCoefficient }
    botAnalysis := { confirmed := botCount
                     suspicious := suspiciousCount
                     percentage := ((JSQ.fin (botCount : ℚ)).div
                       (.fin (network.nodes.length : ℚ))).mul (.fin 100) }
    coordination := { patternsDetected := coordination.length
                      highConfidence := (coordination.filter
                        (fun c => c.confidence.gtB (.fin (8/10)))).length
                      totalAccountsInvolved :=
                        (jsDedup (coordination.flatMap (fun c => c.accounts))).length }
    anomalies := { total := anomalies.length
                   critical := (anomalies.filter
                     (fun a => decide (a.severity = .critical))).length
                   high := (anomalies.filter
                     (fun a => decide (a.severity = .high))).length
                   medium := (anomalies.filter
                     (fun a => decide (a.severity = .medium))).length }
    topInfluencers := (network.influencers.take 5).map (fun i =>
      { accountId := i.accountId, score := i.influenceScore, role := i.role }) }

/-- runFullAnalysis: network analysis, bot detection, coordination
detection, anomaly detection, then the summary.  now and rand stand
for every wall-clock and Math.random read of the run. -/
def runFullAnalysis (spreadData : SpreadData) (analysisId : String)
    (now : ℤ) (rand : String) : FullAnalysisResult :=
  let network := analyzeNetwork spreadData analysisId now rand
  let accounts := extractAccounts spreadData
  let bots := detectBots accounts now
  let activities := extractActivities spreadData
  let coordination := detectCoordination activities analysisId
  let timeline := extractTimeline spreadData
  let anomalies := detectAnomalies timeline analysisId now
  { network := network
    bots := bots
    coordination := coordination
    anomalies := anomalies
    summary := generateSummary network bots coordination anomalies now }

/-! ## Claim formalisations and concrete inputs

The checkers below state claim properties in executable form; the
concrete SpreadData / timeline / pattern values are the inputs used by
counterexamples and witnesses. -/

/-- Membership of a JS value in the closed unit interval (NaN and the
infinities are outside). -/
def jsqInUnit : JSQ → Bool
  | .fin q => decide (0 ≤ q ∧ q ≤ 1)
  | _ => false

/-- Claim C1 as stated: every cluster has at least 3 members and both
coherence and suspicion score lie in [0, 1]. -/
def c1Check (analysis : NetworkAnalysis) : Bool :=
  analysis.clusters.all (fun c =>
    decide (3 ≤ c.nodes.length)
      && decide (0 ≤ c.coherence ∧ c.coherence ≤ 1)
      && jsqInUnit c.suspicionScore)

/-- Equality of affected-account lists as sets. -/
def sameAccountSet (l1 l2 : List String) : Bool :=
  l1.all (fun x => decide (x ∈ l2)) && l2.all (fun x => decide (x ∈ l1))

/-- Claim C4's forbidden situation: two distinct positions in the list
holding anomalies of the same type, the same account set and the same
minute. -/
def c4Dup (l : List Anomaly) : Bool :=
  l.tails.any (fun t =>
    match t with
    | [] => false
    | a :: rest => rest.any (fun b =>
        decide (a.type = b.type)
          && sameAccountSet a.affectedAccounts b.affectedAccounts
          && decide (a.timestamp.fdiv 60000 = b.timestamp.fdiv 60000)))

/-- Cluster identity up to the clock/randomness-derived id. -/
def eraseClusterId (c : Cluster) : Cluster := { c with id := "" }

/-- Every element of the list equals every other. -/
def allSame (l : List ℤ) : Prop := ∀ x ∈ l, ∀ y ∈ l, x = y

instance : DecidablePred allSame := fun l => by
  unfold allSame; infer_instance

/-- The spread events of a dataset carry pairwise distinct authors. -/
def authorsDistinct (d : SpreadData) : Prop :=
  (((d.retweets ++ d.quotes) ++ d.replies).map (fun it => it.authorId)).Nodup

def aidX : String := "analysis-1"

def randX : String := "r4nd0m"

def emptyCluster : Cluster :=
  { id := "", nodes := [], coherence := 0
    activityPattern :=
      { timeDistribution := { hourly := [], daily := [], timezone := "UTC" }
        contentSimilarity := 0, coordinationScore := .fin 0, burstiness := 0 }
    suspicionScore := .fin 0 }

def mkItem (id aid : String) (t : ℤ) : SpreadItem :=
  { id := id, authorId := aid, text := none, createdAt := t
    cascadeDepth := 1, author := none }

/-- C1 counterexample input: one author, four retweets by the same
account plus one more — five directed edges inside a three-member
component. -/
def dC1 : SpreadData :=
  { originalTweet := { id := "t0", authorId := "a", text := "hello"
                       createdAt := 0, author := none }
    retweets := [mkItem "r1" "b" 1000, mkItem "r2" "b" 2000,
                 mkItem "r3" "b" 3000, mkItem "r4" "b" 4000,
                 mkItem "r5" "c" 5000]
    quotes := [], replies := [] }

/-- C1 witness input: distinct authors, distinct timestamps. -/
def dC1w : SpreadData :=
  { originalTweet := { id := "t0", authorId := "a", text := "hello"
                       createdAt := 0, author := none }
    retweets := [mkItem "r1" "b" 1000, mkItem "r2" "c" 2000]
    quotes := [], replies := [] }

/-- The witness cluster: the single component of dC1w. -/
def cC1w : Cluster :=
  ((analyzeNetwork dC1w aidX 0 randX).clusters).headD emptyCluster

def accC3 : Account :=
  { id := "u1", username := "alice", displayName := "Alice"
    createdAt := 0, followersCount := 2000, followingCount := 10
    tweetCount := 100, verified := false
    description := some "a twenty character bio"
    location := some "earth", profileImageUrl := some "pic.jpg" }

/-- C3 counterexample input: one account whose age-dependent bot
signals read the clock. -/
def dC3 : SpreadData :=
  { originalTweet := { id := "t0", authorId := "u1", text := "hello"
                       createdAt := 0, author := some accC3 }
    retweets := [], quotes := [], replies := [] }

def msPerDay : ℤ := 86400000

def mkTE (id : String) (t : ℤ) (ty : String) (acc : String) (d : ℕ) :
    TimelineEvent :=
  { id := id, timestamp := t, type := ty, accountId := acc, cascadeDepth := d }

/-- C4 counterexample timeline: the retweet-depth-1 and quote-depth-1
behaviour groups each jump from one event to four in their second
window, producing two behaviour anomalies in the same minute whose
account sets coincide while their stored orders differ. -/
def tlC4 : List TimelineEvent :=
  [ mkTE "1" 0 "retweet" "x" 1,
    mkTE "2" 900000 "retweet" "a" 1,
    mkTE "3" 900060 "retweet" "b" 1,
    mkTE "4" 900120 "retweet" "x" 1,
    mkTE "5" 900180 "retweet" "x" 1,
    mkTE "6" 1800000 "retweet" "x" 1,
    mkTE "7" 1800010 "retweet" "x" 1,
    mkTE "8" 1800020 "retweet" "x" 1,
    mkTE "9" 1800030 "retweet" "x" 1,
    mkTE "10" 1800040 "retweet" "x" 1,
    mkTE "11" 1 "quote" "x" 1,
    mkTE "12" 900030 "quote" "b" 1,
    mkTE "13" 900090 "quote" "a" 1,
    mkTE "14" 900150 "quote" "x" 1,
    mkTE "15" 900210 "quote" "x" 1,
    mkTE "16" 1800050 "quote" "x" 1,
    mkTE "17" 1800060 "quote" "x" 1,
    mkTE "18" 1800070 "quote" "x" 1,
    mkTE "19" 1800080 "quote" "x" 1,
    mkTE "20" 1800090 "quote" "x" 1 ]

def mkPat (accs : List String) : CoordinationPattern :=
  { accounts := accs, type := .temporal, confidence := .fin (1/2)
    evidence := [], timeWindow := (.fin 0, .fin 1) }

/-- C5 counterexample input: the third pattern bridges the first two,
but the second has already been emitted alone when the bridge merges. -/
def psC5 : List CoordinationPattern :=
  [ mkPat ["a", "b", "p"], mkPat ["c", "d", "q"], mkPat ["a", "b", "c", "d"] ]

/-- C5 witness input: pairwise overlap of one account. -/
def psC5w : List CoordinationPattern :=
  [ mkPat ["a", "b", "p"], mkPat ["p", "c", "d"] ]

/-- C7 witness input. -/
def dC7w : SpreadData :=
  { originalTweet := { id := "t0", authorId := "a", text := "h"
                       createdAt := 5, author := none }
    retweets := [], quotes := [], replies := [] }

/-- C8 witness timeline: nine events. -/
def tlC8w : List TimelineEvent :=
  (List.range 9).map (fun i => mkTE (toString i) ((i : ℤ) * 1000) "retweet"
    ("u" ++ toString i) 1)

/-- C9 witness events. -/
def evC9w : List SpreadEvent :=
  [ { id := "e1", type := .retweet, sourceAccountId := "a"
      targetTweetId := "t0", timestamp := 0, cascadeDepth := 1
      content := none },
    { id := "e2", type := .retweet, sourceAccountId := "b"
      targetTweetId := "t0", timestamp := 1000, cascadeDepth := 1
      content := none },
    { id := "e3", type := .retweet, sourceAccountId := "c"
      targetTweetId := "t0", timestamp := 2000, cascadeDepth := 1
      content := none } ]

/-- C10 witness timeline: ten events inside one five-minute window. -/
def tlC10w : List TimelineEvent :=
  (List.range 10).map (fun i => mkTE (toString i) ((i : ℤ) * 1000) "retweet"
    ("u" ++ toString i) 1)

/-- A default edge for total head lookups in witnesses. -/
def emptyEdge : NetworkEdge :=
  { source := "", target := "", type := .retweet, weight := 1, timestamp := 0 }

/-- The first edge of the dC1 graph, used by the C2 witness. -/
def edgeC2w : NetworkEdge := ((buildNetworkGraph dC1).2).headD emptyEdge

/-- A concrete anomaly for the C4 witness. -/
def anC4w : Anomaly :=
  { id := "spike-0", type := .spike, severity := .medium, timestamp := 0
    description := "w", affectedAccounts := ["a"]
    metrics := { deviation := .fin 3, baseline := .fin 1, observed := .fin 3
                 confidence := .fin (7/10) } }

/-- The claim C6 ordering human < uncertain < cyborg < bot. -/
def classRank : BotClass → ℕ
  | .human => 0
  | .uncertain => 1
  | .cyborg => 2
  | .bot => 3

/-! ## Theorems -/

/-- The ascending sort the cluster scorers apply to their
timestamp lists (proof abbreviation for the shared let binding). -/
def sortedTs (ts : List ℤ) : List ℤ := List.insertionSort (fun a b => a ≤ b) ts

/-- The average inter-event interval of the sorted timestamps
(the avgInterval let of calculateCoordinationScore). -/
def avgIntervalOf (ts : List ℤ) : ℚ :=
  (((consecutiveDiffs (sortedTs ts)).map (fun (i : ℤ) => (i : ℚ))).sum)
    / ((consecutiveDiffs (sortedTs ts)).length : ℚ)

/-- The interval variance around the average (the variance let of
calculateCoordinationScore). -/
def varianceOf (ts : List ℤ) : ℚ :=
  (((consecutiveDiffs (sortedTs ts)).map
      (fun (i : ℤ) => ((i : ℚ) - avgIntervalOf ts) ^ 2)).sum)
    / ((consecutiveDiffs (sortedTs ts)).length : ℚ)

/-- The node map and edge list after the three event folds of
buildNetworkGraph, before the connection pass (proof abbreviation
for its let bindings). -/
def bngStage (d : SpreadData) :
    List (String × NetworkNode) × List NetworkEdge :=
  let authorId := d.originalTweet.authorId
  let sourceNode : NetworkNode :=
    { id := "node-" ++ authorId, accountId := authorId, type := .source
      influence := 100, connections := []
      timestamp := d.originalTweet.createdAt }
  let st : List (String × NetworkNode) × List NetworkEdge :=
    ([(authorId, sourceNode)], [])
  let st := d.retweets.foldl
    (fun st rt => addNodeAndEdge st.1 st.2 rt.authorId authorId .retweet rt.createdAt 1) st
  let st := d.quotes.foldl
    (fun st qt => addNodeAndEdge st.1 st.2 qt.authorId authorId .quote qt.createdAt 2) st
  d.replies.foldl
    (fun st rp => addNodeAndEdge st.1 st.2 rp.authorId authorId .reply rp.createdAt (3/2)) st

/-- The node map after buildNetworkGraph has populated the
undirected connection lists. -/
def bngNodeMap (d : SpreadData) : List (String × NetworkNode) :=
  (bngStage d).2.foldl
    (fun m e => addConnection (addConnection m e.source e.target) e.target e.source)
    (bngStage d).1

attribute [local semireducible] Rat.mul Rat.add Rat.sub Rat.inv Rat.ofScientific

set_option maxRecDepth 10000

/-- mergePatterns stamps every emitted pattern as mixed, merged or
not. -/
theorem mergeOuter_mem_type (allP : List (ℕ × CoordinationPattern)) :
    ∀ (l : List (ℕ × CoordinationPattern)) (used : List ℕ)
      (p : CoordinationPattern), p ∈ mergeOuter allP l used →
      p.type = .mixed := by
  intro l
  induction l with
  | nil => intro used p hp; simp [mergeOuter] at hp
  | cons hd tl ih =>
      intro used p hp
      obtain ⟨i, q⟩ := hd
      rw [mergeOuter] at hp
      by_cases hi : i ∈ used
      · rw [if_pos hi] at hp
        exact ih used p hp
      · rw [if_neg hi] at hp
        rcases List.mem_cons.mp hp with h | h
        · rw [h]
        · exact ih _ p h

/-- C9: every coordination pattern returned by detectCoordination has
type mixed — the merge pass rebuilds each surviving pattern with
type := mixed whether or not anything was merged into it, so the
temporal / content / network types never reach the output. -/
theorem c9_all_patterns_mixed (activities : List SpreadEvent)
    (analysisId : String) (_h : activities ≠ [])
    (p : CoordinationPattern)
    (hp : p ∈ detectCoordination activities analysisId) :
    p.type = .mixed :=
  mergeOuter_mem_type _ _ _ p hp

/-- Witness for C9 at a concrete three-event input. -/
theorem c9_witness :
    evC9w ≠ [] ∧ ∀ p ∈ detectCoordination evC9w aidX, p.type = .mixed :=
  ⟨by decide, fun p hp => c9_all_patterns_mixed evC9w aidX (by decide) p hp⟩

/-- C8: below ten timeline events detectAnomalies returns the empty
list (and, being a total function, never fails). -/
theorem c8_insufficient_data (timeline : List TimelineEvent)
    (analysisId : String) (now : ℤ) (h : timeline.length < 10) :
    detectAnomalies timeline analysisId now = [] := by
  unfold detectAnomalies
  rw [if_pos h]

/-- Witness for C8 at a nine-event timeline. -/
theorem c8_witness :
    tlC8w.length < 10 ∧ detectAnomalies tlC8w aidX 0 = [] :=
  ⟨by decide, c8_insufficient_data tlC8w aidX 0 (by decide)⟩

/-- C6: the bot classification is monotone in the probability for the
ordering human < uncertain < cyborg < bot. -/
theorem c6_classify_monotone (p1 p2 : ℚ) (h : p1 ≤ p2) :
    classRank (classify p1) ≤ classRank (classify p2) := by
  unfold classify
  split_ifs <;> simp [classRank] <;> linarith

/-- Witness for C6 at 0.25 ≤ 0.5. -/
theorem c6_witness :
    (1 : ℚ)/4 ≤ 1/2
      ∧ classRank (classify (1/4)) ≤ classRank (classify (1/2)) :=
  ⟨by norm_num, c6_classify_monotone (1/4) (1/2) (by norm_num)⟩

/-- Counterexample to C1 as stated: on dC1 the single cluster (the
author with two spreaders, one of whom retweeted four times) counts
five directed parallel edges against the three undirected pairs, so
its coherence is 5/3 > 1. -/
theorem c1_counterexample :
    c1Check (analyzeNetwork dC1 aidX 0 randX) = false := by decide

/-- Counterexample to C3 as stated: the bot detector reads the clock
for its account-age signals, so the same dataset analysed 29 days and
400 days after the account's creation yields different
BotDetectionResults (the probability itself changes). -/
theorem c3_counterexample :
    (runFullAnalysis dC3 aidX (29 * msPerDay) randX).bots
      ≠ (runFullAnalysis dC3 aidX (400 * msPerDay) randX).bots := by decide

/-- Counterexample to C4 as stated: on tlC4 the returned list holds two
behaviour anomalies in the same minute whose affected-account sets are
equal but stored in different orders, so the unsorted join key keeps
both. -/
theorem c4_counterexample :
    c4Dup (detectAnomalies tlC4 aidX 0) = true := by decide

/-- Counterexample to C5 as stated: merging the already-merged psC5
output with itself collapses its two patterns (which still share two
accounts) into one, changing the account sets. -/
theorem c5_counterexample :
    (mergePatterns (mergePatterns psC5)).map (fun p => jsDedup p.accounts)
        ≠ (mergePatterns psC5).map (fun p => jsDedup p.accounts)
      ∧ (mergePatterns psC5).length = 2
      ∧ (mergePatterns (mergePatterns psC5)).length = 1 := by
  refine ⟨by decide, by decide, by decide⟩

/-- alistSet never returns the empty map. -/
theorem alistSet_ne_nil {κ α : Type} [DecidableEq κ]
    (m : List (κ × α)) (k : κ) (v : α) : alistSet m k v ≠ [] := by
  cases m with
  | nil => simp [alistSet]
  | cons hd tl =>
      obtain ⟨k', v'⟩ := hd
      unfold alistSet
      split <;> simp

/-- The volume-window map of a nonempty timeline is nonempty. -/
theorem volumeByWindow_ne_nil (timeline : List TimelineEvent)
    (windowSize : ℤ) (h : timeline ≠ []) :
    calculateVolumeByWindow timeline windowSize ≠ [] := by
  unfold calculateVolumeByWindow
  suffices hgen : ∀ (l : List TimelineEvent) (m : List (ℤ × ℕ)),
      m ≠ [] ∨ l ≠ [] →
      l.foldl (fun m e =>
        let windowStart := (e.timestamp.fdiv windowSize) * windowSize
        alistSet m windowStart ((alistGet m windowStart).getD 0 + 1)) m ≠ [] by
    exact hgen timeline [] (Or.inr h)
  intro l
  induction l with
  | nil =>
      intro m hm
      rcases hm with hm | hm
      · simpa using hm
      · simp at hm
  | cons e t ih =>
      intro m _
      simp only [List.foldl_cons]
      exact ih _ (Or.inl (alistSet_ne_nil _ _ _))

/-- Sum of a constant list. -/
theorem list_sum_const (l : List ℚ) (c : ℚ) (h : ∀ x ∈ l, x = c) :
    l.sum = (l.length : ℚ) * c := by
  induction l with
  | nil => simp
  | cons x t ih =>
      have hx := h x (List.mem_cons_self x t)
      have ht := ih (fun y hy => h y (List.mem_cons_of_mem x hy))
      simp [hx, ht]
      ring

/-- ratSqrt vanishes at zero. -/
theorem ratSqrt_zero : ratSqrt 0 = 0 := by decide

/-- The statistics of a nonempty constant list: mean c, deviation 0. -/
theorem calculateStatistics_const (l : List ℚ) (c : ℚ) (hne : l ≠ [])
    (h : ∀ x ∈ l, x = c) : calculateStatistics l = (c, 0) := by
  have hlen : l.length ≠ 0 := by
    simpa [List.length_eq_zero] using hne
  have hlenQ : ((l.length : ℚ)) ≠ 0 := by exact_mod_cast hlen
  unfold calculateStatistics
  rw [if_neg hlen]
  have hmean : l.sum / (l.length : ℚ) = c := by
    rw [list_sum_const l c h, mul_comm, mul_div_assoc, div_self hlenQ, mul_one]
  have hvar : ((l.map (fun v => (v - c) ^ 2)).sum) = 0 := by
    have : ∀ x ∈ l.map (fun v => (v - c) ^ 2), x = (0 : ℚ) := by
      intro x hx
      rcases List.mem_map.mp hx with ⟨v, hv, rfl⟩
      rw [h v hv]
      ring
    rw [list_sum_const _ 0 this, mul_zero]
  simp only [hmean]
  rw [hvar]
  simp [ratSqrt_zero]

/-- C10: when every 5-minute window of a timeline with at least ten
events holds the same event count, the window statistics have zero
standard deviation, every z-score is the NaN of 0 / 0 (so the |z| > 3
test is false), and detectVolumeSpikes returns normally with no spike
anomaly. -/
theorem c10_constant_volume_no_spikes (timeline : List TimelineEvent)
    (c : ℕ) (h10 : 10 ≤ timeline.length)
    (hc : ∀ w ∈ calculateVolumeByWindow timeline (5 * 60 * 1000), w.2 = c) :
    (∀ w ∈ calculateVolumeByWindow timeline (5 * 60 * 1000),
        volumeZScore w.2
          (calculateStatistics
            ((calculateVolumeByWindow timeline (5 * 60 * 1000)).map
              (fun p => ((p.2 : ℚ))))) = JSQ.nan)
      ∧ detectVolumeSpikes timeline = [] := by
  have hne : timeline ≠ [] := by
    intro hnil
    rw [hnil] at h10
    simp at h10
  have hwne : calculateVolumeByWindow timeline (5 * 60 * 1000) ≠ [] :=
    volumeByWindow_ne_nil timeline _ hne
  have hvals : ∀ x ∈ (calculateVolumeByWindow timeline (5 * 60 * 1000)).map
      (fun p => ((p.2 : ℚ))), x = (c : ℚ) := by
    intro x hx
    rcases List.mem_map.mp hx with ⟨w, hw, rfl⟩
    exact_mod_cast congrArg (fun n => ((n : ℕ) : ℚ)) (hc w hw)
  have hmne : (calculateVolumeByWindow timeline (5 * 60 * 1000)).map
      (fun p => ((p.2 : ℚ))) ≠ [] := by
    simpa using hwne
  have hstats := calculateStatistics_const _ _ hmne hvals
  have hz : ∀ w ∈ calculateVolumeByWindow timeline (5 * 60 * 1000),
      volumeZScore w.2
        (calculateStatistics
          ((calculateVolumeByWindow timeline (5 * 60 * 1000)).map
            (fun p => ((p.2 : ℚ))))) = JSQ.nan := by
    intro w hw
    rw [hstats]
    unfold volumeZScore
    rw [hc w hw]
    simp [JSQ.div]
  refine ⟨hz, ?_⟩
  unfold detectVolumeSpikes
  rw [List.filterMap_eq_nil_iff]
  intro w hw
  have := hz w hw
  rw [show (5 : ℤ) * 60 * 1000 = 300000 by norm_num] at this ⊢
  rw [this]
  simp [JSQ.abs, JSQ.gtB, JSQ.ltB]

/-- Witness for C10 at a ten-event single-window timeline. -/
theorem c10_witness :
    10 ≤ tlC10w.length
      ∧ (∀ w ∈ calculateVolumeByWindow tlC10w (5 * 60 * 1000), w.2 = 10)
      ∧ ((∀ w ∈ calculateVolumeByWindow tlC10w (5 * 60 * 1000),
            volumeZScore w.2
              (calculateStatistics
                ((calculateVolumeByWindow tlC10w (5 * 60 * 1000)).map
                  (fun p => ((p.2 : ℚ))))) = JSQ.nan)
          ∧ detectVolumeSpikes tlC10w = []) :=
  ⟨by decide, by decide,
    c10_constant_volume_no_spikes tlC10w 10 (by decide) (by decide)⟩

/-- A lookup miss means the key is on no entry. -/
theorem alistGet_eq_none_iff {κ α : Type} [DecidableEq κ]
    (m : List (κ × α)) (k : κ) :
    alistGet m k = none ↔ ∀ p ∈ m, k ≠ p.1 := by
  induction m with
  | nil => simp [alistGet]
  | cons hd tl ih =>
      obtain ⟨k', v'⟩ := hd
      by_cases hk : k = k'
      · subst hk
        simp [alistGet]
      · simp [alistGet, hk, ih]

/-- Setting an absent key appends the new entry. -/
theorem alistSet_of_get_none {κ α : Type} [DecidableEq κ]
    (m : List (κ × α)) (k : κ) (v : α) (h : alistGet m k = none) :
    alistSet m k v = m ++ [(k, v)] := by
  induction m with
  | nil => simp [alistSet]
  | cons hd tl ih =>
      obtain ⟨k', v'⟩ := hd
      by_cases hk : k = k'
      · rw [alistGet, if_pos hk] at h
        cases h
      · rw [alistGet, if_neg hk] at h
        rw [alistSet, if_neg hk, ih h]
        simp

/-- Replacing the value at a present key leaves any per-entry image
unchanged, provided the new value has the same image as the stored
one. -/
theorem alistSet_map_snd_of_get {κ α β : Type} [DecidableEq κ]
    (m : List (κ × α)) (k : κ) (v w : α) (f : α → β)
    (hget : alistGet m k = some w) (hf : f v = f w) :
    (alistSet m k v).map (fun p => f p.2) = m.map (fun p => f p.2) := by
  induction m with
  | nil => simp [alistGet] at hget
  | cons hd tl ih =>
      obtain ⟨k', v'⟩ := hd
      by_cases hk : k = k'
      · rw [alistGet, if_pos hk] at hget
        injection hget with hw
        rw [alistSet, if_pos hk]
        simp [hf, hw]
      · rw [alistGet, if_neg hk] at hget
        rw [alistSet, if_neg hk]
        simp [ih hget]

/-- The per-node projection the C2 invariants track. -/
theorem addConnection_map_proj (m : List (String × NetworkNode))
    (k other : String) :
    (addConnection m k other).map
        (fun p => (p.2.type, p.2.accountId, p.2.influence))
      = m.map (fun p => (p.2.type, p.2.accountId, p.2.influence)) := by
  unfold addConnection
  cases hget : alistGet m k with
  | none => rfl
  | some node =>
      dsimp only
      by_cases hmem : other ∈ node.connections
      · rw [if_pos hmem]
      · rw [if_neg hmem]
        exact alistSet_map_snd_of_get m k
          { node with connections := node.connections ++ [other] } node
          (fun n => (n.type, n.accountId, n.influence)) hget rfl

/-- One addNodeAndEdge call preserves the single-source invariant: the
node map stays the source triple followed by spreader triples. -/
theorem addNodeAndEdge_nodes_inv (A : String) (ty : EdgeType) (w : ℚ)
    (m : List (String × NetworkNode)) (es : List NetworkEdge)
    (acc : String) (ts : ℤ) (rest : List (NodeType × String × ℚ))
    (hm : m.map (fun p => (p.2.type, p.2.accountId, p.2.influence))
      = (NodeType.source, A, (100 : ℚ)) :: rest)
    (hrest : ∀ x ∈ rest, x.1 = NodeType.spreader) :
    ∃ rest2,
      ((addNodeAndEdge m es acc A ty ts w).1.map
          (fun p => (p.2.type, p.2.accountId, p.2.influence))
        = (NodeType.source, A, (100 : ℚ)) :: rest2)
      ∧ ∀ x ∈ rest2, x.1 = NodeType.spreader := by
  unfold addNodeAndEdge
  cases hget : alistGet m acc with
  | some node => exact ⟨rest, hm, hrest⟩
  | none =>
      refine ⟨rest ++ [(NodeType.spreader, acc, 0)], ?_, ?_⟩
      · rw [alistSet_of_get_none m acc _ hget]
        simp [hm]
      · intro x hx
        rcases List.mem_append.mp hx with hx | hx
        · exact hrest x hx
        · simp at hx
          rw [hx]

/-- The invariant over a whole event fold. -/
theorem foldl_addNodeAndEdge_nodes_inv (A : String) (ty : EdgeType) (w : ℚ)
    (items : List SpreadItem) :
    ∀ (st : List (String × NetworkNode) × List NetworkEdge)
      (rest : List (NodeType × String × ℚ)),
      (st.1.map (fun p => (p.2.type, p.2.accountId, p.2.influence))
        = (NodeType.source, A, (100 : ℚ)) :: rest) →
      (∀ x ∈ rest, x.1 = NodeType.spreader) →
      ∃ rest2,
        ((items.foldl (fun st it =>
            addNodeAndEdge st.1 st.2 it.authorId A ty it.createdAt w) st).1.map
              (fun p => (p.2.type, p.2.accountId, p.2.influence))
          = (NodeType.source, A, (100 : ℚ)) :: rest2)
        ∧ ∀ x ∈ rest2, x.1 = NodeType.spreader := by
  induction items with
  | nil => intro st rest hm hrest; exact ⟨rest, hm, hrest⟩
  | cons it t ih =>
      intro st rest hm hrest
      simp only [List.foldl_cons]
      obtain ⟨rest2, hm2, hrest2⟩ :=
        addNodeAndEdge_nodes_inv A ty w st.1 st.2 it.authorId it.createdAt
          rest hm hrest
      exact ih _ rest2 hm2 hrest2

/-- Every edge appended by an addNodeAndEdge fold targets A. -/
theorem foldl_addNodeAndEdge_targets (A : String) (ty : EdgeType) (w : ℚ)
    (items : List SpreadItem) :
    ∀ (st : List (String × NetworkNode) × List NetworkEdge),
      (∀ e ∈ st.2, e.target = A) →
      ∀ e ∈ (items.foldl (fun st it =>
          addNodeAndEdge st.1 st.2 it.authorId A ty it.createdAt w) st).2,
        e.target = A := by
  induction items with
  | nil => intro st h; exact h
  | cons it t ih =>
      intro st h
      simp only [List.foldl_cons]
      refine ih _ ?_
      intro e he
      have : (addNodeAndEdge st.1 st.2 it.authorId A ty it.createdAt w).2
          = st.2 ++ [{ source := it.authorId, target := A, type := ty
                       weight := w, timestamp := it.createdAt }] := rfl
      rw [this] at he
      rcases List.mem_append.mp he with he | he
      · exact h e he
      · simp at he
        rw [he]

/-- The connection-population fold does not alter the projection. -/
theorem foldl_addConnection_map_proj (edges : List NetworkEdge) :
    ∀ (m : List (String × NetworkNode)),
      (edges.foldl (fun m e =>
          addConnection (addConnection m e.source e.target) e.target e.source)
        m).map (fun p => (p.2.type, p.2.accountId, p.2.influence))
      = m.map (fun p => (p.2.type, p.2.accountId, p.2.influence)) := by
  induction edges with
  | nil => intro m; rfl
  | cons e t ih =>
      intro m
      simp only [List.foldl_cons]
      rw [ih, addConnection_map_proj, addConnection_map_proj]

/-- Source-filtering a node list whose projections are one source
triple followed by spreader triples. -/
theorem filter_source_of_proj (A : String) :
    ∀ (ns : List NetworkNode) (rest : List (NodeType × String × ℚ)),
      ns.map (fun n => (n.type, n.accountId, n.influence))
        = (NodeType.source, A, (100 : ℚ)) :: rest →
      (∀ x ∈ rest, x.1 = NodeType.spreader) →
      (ns.filter (fun n => decide (n.type = NodeType.source))).map
        (fun n => (n.accountId, n.influence)) = [(A, 100)] := by
  intro ns
  induction ns with
  | nil => intro rest h; cases h
  | cons n0 t ih =>
      intro rest h hrest
      simp only [List.map_cons, List.cons.injEq] at h
      obtain ⟨hproj, htail⟩ := h
      have hty : n0.type = NodeType.source := congrArg Prod.fst hproj
      have hacc : n0.accountId = A := congrArg (fun p => p.2.1) hproj
      have hinf : n0.influence = (100 : ℚ) := congrArg (fun p => p.2.2) hproj
      rw [List.filter_cons, if_pos (by simp [hty])]
      have htailnil :
          t.filter (fun n => decide (n.type = NodeType.source)) = [] := by
        rw [List.filter_eq_nil_iff]
        intro n hn
        have : (n.type, n.accountId, n.influence) ∈ rest := by
          rw [← htail]
          exact List.mem_map_of_mem _ hn
        have := hrest _ this
        simp at this ⊢
        rw [this]
        intro hcontra
        cases hcontra
      rw [htailnil]
      simp [hacc, hinf]

/-- The single-source projection invariant holds for the full graph
builder. -/
theorem buildNetworkGraph_nodes_proj (d : SpreadData) :
    ∃ rest, ((buildNetworkGraph d).1).map
        (fun n => (n.type, n.accountId, n.influence))
      = (NodeType.source, d.originalTweet.authorId, (100 : ℚ)) :: rest
      ∧ ∀ x ∈ rest, x.1 = NodeType.spreader := by
  obtain ⟨r1, h1, hr1⟩ := foldl_addNodeAndEdge_nodes_inv
    d.originalTweet.authorId .retweet 1 d.retweets
    ([(d.originalTweet.authorId,
        { id := "node-" ++ d.originalTweet.authorId
          accountId := d.originalTweet.authorId, type := .source
          influence := 100, connections := []
          timestamp := d.originalTweet.createdAt })], []) [] (by simp) (by simp)
  obtain ⟨r2, h2, hr2⟩ := foldl_addNodeAndEdge_nodes_inv
    d.originalTweet.authorId .quote 2 d.quotes _ r1 h1 hr1
  obtain ⟨r3, h3, hr3⟩ := foldl_addNodeAndEdge_nodes_inv
    d.originalTweet.authorId .reply (3/2) d.replies _ r2 h2 hr2
  refine ⟨r3, ?_, hr3⟩
  simp only [buildNetworkGraph]
  rw [List.map_map]
  exact (foldl_addConnection_map_proj _ _).trans h3

/-- Every edge of the graph builder targets the original author. -/
theorem buildNetworkGraph_edge_targets (d : SpreadData) :
    ∀ e ∈ (buildNetworkGraph d).2, e.target = d.originalTweet.authorId := by
  simp only [buildNetworkGraph]
  exact foldl_addNodeAndEdge_targets d.originalTweet.authorId .reply (3/2)
    d.replies _
    (foldl_addNodeAndEdge_targets d.originalTweet.authorId .quote 2 d.quotes _
      (foldl_addNodeAndEdge_targets d.originalTweet.authorId .retweet 1
        d.retweets _ (by simp)))

/-- C2: for every SpreadData, the graph holds exactly one node of role
source — the original author, influence 100 — and every edge's target
is the original author's account id.  The uniqueness holds
unconditionally: when the author also appears as a spreader, the node
map keeps the existing source node, so the claim's unless-clause is
never exercised. -/
theorem c2_unique_source_and_edge_targets (d : SpreadData) :
    (((buildNetworkGraph d).1.filter
        (fun n => decide (n.type = NodeType.source))).map
          (fun n => (n.accountId, n.influence))
      = [(d.originalTweet.authorId, 100)])
    ∧ ∀ e ∈ (buildNetworkGraph d).2, e.target = d.originalTweet.authorId := by
  obtain ⟨rest, h, hrest⟩ := buildNetworkGraph_nodes_proj d
  exact ⟨filter_source_of_proj d.originalTweet.authorId _ rest h hrest,
    buildNetworkGraph_edge_targets d⟩

/-- Witness for C2 on dC1: the source-node projection is the author,
and the concrete first edge targets the author. -/
theorem c2_witness :
    (((buildNetworkGraph dC1).1.filter
        (fun n => decide (n.type = NodeType.source))).map
          (fun n => (n.accountId, n.influence))
      = [(dC1.originalTweet.authorId, 100)])
    ∧ edgeC2w ∈ (buildNetworkGraph dC1).2
    ∧ edgeC2w.target = dC1.originalTweet.authorId :=
  ⟨(c2_unique_source_and_edge_targets dC1).1, by decide,
    (c2_unique_source_and_edge_targets dC1).2 edgeC2w (by decide)⟩

/-- The cluster scan is clock- and randomness-independent once the
cluster ids (the only fields built from Date.now / Math.random) are
erased. -/
theorem detectClustersGo_erase_clock (adj : List (String × List String))
    (allNodes : List NetworkNode) (edges : List NetworkEdge)
    (now1 now2 : ℤ) (r1 r2 : String) :
    ∀ (l : List NetworkNode) (visited : List String),
      (detectClustersGo adj allNodes edges now1 r1 l visited).map eraseClusterId
        = (detectClustersGo adj allNodes edges now2 r2 l visited).map
            eraseClusterId := by
  intro l
  induction l with
  | nil => intro visited; rfl
  | cons node rest ih =>
      intro visited
      rw [detectClustersGo, detectClustersGo]
      by_cases hv : node.accountId ∈ visited
      · rw [if_pos hv, if_pos hv]
        exact ih visited
      · rw [if_neg hv, if_neg hv]
        by_cases hlen :
            (bfsExpand adj (totalAdjSize adj + 2)
              [node.accountId] visited).1.length ≥ 3
        · rw [if_pos hlen, if_pos hlen]
          simp only [List.map_cons]
          rw [ih]
          rfl
        · rw [if_neg hlen, if_neg hlen]
          exact ih _

/-- C3 amended: for a fixed clock reading and random draw the pipeline
is a pure function of its input; across different clock readings the
coordination patterns and the network analysis — nodes, edges,
influencers, propagation paths, metrics, and the clusters up to their
ids — are unchanged.  The bot results and the anomalies do depend on
the clock (see the counterexample: account-age signals read Date.now,
and anomaly ids and network-anomaly timestamps embed it). -/
theorem c3_amended_clock_independence (d : SpreadData) (aid : String)
    (now1 now2 : ℤ) (rand1 rand2 : String) :
    (runFullAnalysis d aid now1 rand1).coordination
        = (runFullAnalysis d aid now2 rand2).coordination
      ∧ (runFullAnalysis d aid now1 rand1).network.nodes
        = (runFullAnalysis d aid now2 rand2).network.nodes
      ∧ (runFullAnalysis d aid now1 rand1).network.edges
        = (runFullAnalysis d aid now2 rand2).network.edges
      ∧ (runFullAnalysis d aid now1 rand1).network.influencers
        = (runFullAnalysis d aid now2 rand2).network.influencers
      ∧ (runFullAnalysis d aid now1 rand1).network.propagationPaths
        = (runFullAnalysis d aid now2 rand2).network.propagationPaths
      ∧ (runFullAnalysis d aid now1 rand1).network.metrics
        = (runFullAnalysis d aid now2 rand2).network.metrics
      ∧ (runFullAnalysis d aid now1 rand1).network.clusters.map eraseClusterId
        = (runFullAnalysis d aid now2 rand2).network.clusters.map
            eraseClusterId := by
  refine ⟨rfl, rfl, rfl, rfl, rfl, rfl, ?_⟩
  exact detectClustersGo_erase_clock _ _ _ now1 now2 rand1 rand2 _ _

/-- C7: a dataset with no reposts, quotes or replies yields one node,
no edges, no clusters, exactly one influencer — the source, whose base
score 50 exceeds the threshold 10, with zero reach and originator role
— and no propagation paths. -/
theorem c7_empty_spread (d : SpreadData) (aid : String) (now : ℤ)
    (rand : String) (hr : d.retweets = []) (hq : d.quotes = [])
    (hp : d.replies = []) :
    (analyzeNetwork d aid now rand).nodes.length = 1
    ∧ (analyzeNetwork d aid now rand).edges = []
    ∧ (analyzeNetwork d aid now rand).clusters = []
    ∧ (analyzeNetwork d aid now rand).influencers
        = [{ accountId := d.originalTweet.authorId
             influenceScore := .fin 50
             reachMetrics := { directReach := 0, indirectReach := 0
                               cascadeDepth := 0 }
             role := .originator }]
    ∧ (analyzeNetwork d aid now rand).propagationPaths = [] := by
  simp [analyzeNetwork, buildNetworkGraph, hr, hq, hp, detectClusters,
    buildAdjacencyList, detectClustersGo, bfsExpand, totalAdjSize, alistGet,
    identifyInfluencers, calculateDegrees, calculateReach, bfsReach,
    bfsReachGo, calculateInfluenceScore, determineInfluencerRole,
    tracePropagationPaths, findLeafNodes, findPath, findPathGo, alistPush,
    jsListMin, jsListMax, JSQ.sub, JSQ.add, JSQ.neg, JSQ.gtB, JSQ.ltB,
    JSQ.mul, JSQ.div, List.insertionSort, List.orderedInsert,
    List.filterMap_cons, List.filterMap_nil]

/-- Witness for C7 at the concrete empty dataset dC7w. -/
theorem c7_witness :
    (dC7w.retweets = [] ∧ dC7w.quotes = [] ∧ dC7w.replies = [])
    ∧ ((analyzeNetwork dC7w aidX 0 randX).nodes.length = 1
      ∧ (analyzeNetwork dC7w aidX 0 randX).edges = []
      ∧ (analyzeNetwork dC7w aidX 0 randX).clusters = []
      ∧ (analyzeNetwork dC7w aidX 0 randX).influencers
          = [{ accountId := dC7w.originalTweet.authorId
               influenceScore := .fin 50
               reachMetrics := { directReach := 0, indirectReach := 0
                                 cascadeDepth := 0 }
               role := .originator }]
      ∧ (analyzeNetwork dC7w aidX 0 randX).propagationPaths = []) :=
  ⟨⟨rfl, rfl, rfl⟩, c7_empty_spread dC7w aidX 0 randX rfl rfl rfl⟩

/-- Folding fresh distinct elements into a JS Set appends them. -/
theorem listAddAll_append (l : List String) :
    ∀ (acc : List String), l.Nodup → (∀ x ∈ l, x ∉ acc) →
      listAddAll acc l = acc ++ l := by
  induction l with
  | nil => intro acc _ _; simp [listAddAll]
  | cons x t ih =>
      intro acc hnd hdisj
      have hx : x ∉ acc := hdisj x (List.mem_cons_self x t)
      have hstep : listAddAll acc (x :: t) = listAddAll (listAdd acc x) t := rfl
      rw [hstep, listAdd, if_neg hx, ih (acc ++ [x]) (List.Nodup.of_cons hnd)]
      · simp
      · intro y hy
        simp only [List.mem_append, List.mem_singleton]
        rintro (hy2 | rfl)
        · exact hdisj y (List.mem_cons_of_mem x hy) hy2
        · exact (List.nodup_cons.mp hnd).1 hy

/-- A Set built from a duplicate-free array is that array. -/
theorem jsDedup_of_nodup (l : List String) (h : l.Nodup) : jsDedup l = l := by
  have := listAddAll_append l [] h (by simp)
  simpa [jsDedup] using this

/-- The inner merge scan changes nothing when every candidate overlaps
the account set in fewer than two accounts. -/
theorem mergeInner_noop :
    ∀ (l : List (ℕ × CoordinationPattern)) (accSet : List String)
      (ev : List CoordinationEvidence) (used : List ℕ),
      (∀ jp ∈ l, ((jp.2.accounts.filter
        (fun a => decide (a ∈ accSet))).length < 2)) →
      mergeInner l accSet ev used = (accSet, ev, used) := by
  intro l
  induction l with
  | nil => intro accSet ev used _; rfl
  | cons jp t ih =>
      intro accSet ev used h
      obtain ⟨j, p⟩ := jp
      rw [mergeInner]
      by_cases hj : j ∈ used
      · rw [if_pos hj]
        exact ih accSet ev used (fun x hx => h x (List.mem_cons_of_mem _ hx))
      · rw [if_neg hj]
        have hlt : (p.accounts.filter
            (fun a => decide (a ∈ accSet))).length < 2 :=
          h (j, p) (List.mem_cons_self _ _)
        rw [if_neg (by omega)]
        exact ih accSet ev used (fun x hx => h x (List.mem_cons_of_mem _ hx))

/-- The outer merge scan preserves account lists on pairwise
low-overlap, duplicate-free inputs. -/
theorem mergeOuter_noop (allP : List (ℕ × CoordinationPattern)) :
    ∀ (l : List (ℕ × CoordinationPattern)),
      List.Pairwise (fun ip jp => ((jp.2.accounts.filter
        (fun a => decide (a ∈ ip.2.accounts))).length < 2)) l →
      (∀ jp ∈ l, jp.2.accounts.Nodup) →
      (mergeOuter allP l []).map (fun p => p.accounts)
        = l.map (fun jp => jp.2.accounts) := by
  intro l
  induction l with
  | nil => intro _ _; rfl
  | cons ip t ih =>
      intro hpw hnd
      obtain ⟨i, p⟩ := ip
      rw [mergeOuter, if_neg (List.not_mem_nil i)]
      have hpnd : p.accounts.Nodup := hnd (i, p) (List.mem_cons_self _ _)
      have hded : jsDedup p.accounts = p.accounts := jsDedup_of_nodup _ hpnd
      obtain ⟨hhead, hrest⟩ := List.pairwise_cons.mp hpw
      have hinner : mergeInner t (jsDedup p.accounts) p.evidence []
          = (jsDedup p.accounts, p.evidence, []) := by
        rw [hded]
        exact mergeInner_noop t p.accounts p.evidence []
          (fun jp hjp => hhead jp hjp)
      rw [hinner]
      simp only [List.map_cons]
      rw [ih hrest (fun jp hjp => hnd jp (List.mem_cons_of_mem _ hjp)), hded]

/-- C5 amended: on pattern lists whose members pairwise share fewer
than minGroupSize - 1 = 2 accounts and carry duplicate-free account
lists, mergePatterns preserves every account list — the sense in which
the merge pass is idempotent.  Without that proviso it is not (see the
counterexample). -/
theorem c5_amended_merge_preserves (ps : List CoordinationPattern)
    (h1 : List.Pairwise (fun p q => ((q.accounts.filter
      (fun a => decide (a ∈ p.accounts))).length < 2)) ps)
    (h2 : ∀ p ∈ ps, p.accounts.Nodup) :
    (mergePatterns ps).map (fun p => p.accounts)
      = ps.map (fun p => p.accounts) := by
  have hpw : List.Pairwise (fun ip jp => ((jp.2.accounts.filter
      (fun a => decide (a ∈ ip.2.accounts))).length < 2)) ps.enum :=
    List.pairwise_map.mp
      (show List.Pairwise (fun p q => ((q.accounts.filter
          (fun a => decide (a ∈ p.accounts))).length < 2))
          (ps.enum.map Prod.snd) by
        rw [List.enum_map_snd]; exact h1)
  have hnd : ∀ jp ∈ ps.enum, jp.2.accounts.Nodup := by
    intro jp hjp
    apply h2
    have : jp.2 ∈ ps.enum.map Prod.snd := List.mem_map_of_mem _ hjp
    rwa [List.enum_map_snd] at this
  have hmain := mergeOuter_noop ps.enum ps.enum hpw hnd
  rw [mergePatterns, hmain]
  rw [show ps.map (fun p => p.accounts)
      = (ps.enum.map Prod.snd).map (fun p => p.accounts) by
        rw [List.enum_map_snd]]
  rw [List.map_map]
  rfl

/-- Witness for C5 at the two-pattern, one-shared-account list. -/
theorem c5_witness :
    (List.Pairwise (fun p q => ((q.accounts.filter
        (fun a => decide (a ∈ p.accounts))).length < 2)) psC5w)
    ∧ (∀ p ∈ psC5w, p.accounts.Nodup)
    ∧ (mergePatterns psC5w).map (fun p => p.accounts)
        = psC5w.map (fun p => p.accounts) :=
  ⟨by decide, by decide,
    c5_amended_merge_preserves psC5w (by decide) (by decide)⟩

theorem alistGet_alistSet_self {κ α : Type} [DecidableEq κ]
    (m : List (κ × α)) (k : κ) (v : α) :
    alistGet (alistSet m k v) k = some v := by
  induction m with
  | nil => simp [alistSet, alistGet]
  | cons hd tl ih =>
      obtain ⟨k', v'⟩ := hd
      by_cases hk : k = k'
      · rw [alistSet, if_pos hk, alistGet, if_pos rfl]
      · rw [alistSet, if_neg hk, alistGet, if_neg hk]
        exact ih

theorem alistGet_alistSet_ne {κ α : Type} [DecidableEq κ]
    (m : List (κ × α)) (k k2 : κ) (v : α) (h : k2 ≠ k) :
    alistGet (alistSet m k v) k2 = alistGet m k2 := by
  induction m with
  | nil => simp [alistSet, alistGet, h]
  | cons hd tl ih =>
      obtain ⟨k', v'⟩ := hd
      by_cases hk : k = k'
      · subst hk
        rw [alistSet, if_pos rfl, alistGet, if_neg h, alistGet, if_neg h]
      · rw [alistSet, if_neg hk, alistGet, alistGet]
        by_cases hk2 : k2 = k'
        · rw [if_pos hk2, if_pos hk2]
        · rw [if_neg hk2, if_neg hk2]
          exact ih

theorem alistSet_mem {κ α : Type} [DecidableEq κ]
    (m : List (κ × α)) (k : κ) (v : α) :
    ∀ p ∈ alistSet m k v, p = (k, v) ∨ p ∈ m := by
  induction m with
  | nil => simp [alistSet]
  | cons hd tl ih =>
      obtain ⟨k', v'⟩ := hd
      intro p hp
      by_cases hk : k = k'
      · rw [alistSet, if_pos hk] at hp
        rcases List.mem_cons.mp hp with h | h
        · exact Or.inl h
        · exact Or.inr (List.mem_cons_of_mem _ h)
      · rw [alistSet, if_neg hk] at hp
        rcases List.mem_cons.mp hp with h | h
        · exact Or.inr (h ▸ List.mem_cons_self _ _)
        · rcases ih p h with h2 | h2
          · exact Or.inl h2
          · exact Or.inr (List.mem_cons_of_mem _ h2)

theorem alistGet_some_mem {κ α : Type} [DecidableEq κ]
    (m : List (κ × α)) (k : κ) (v : α) (h : alistGet m k = some v) :
    (k, v) ∈ m := by
  induction m with
  | nil => simp [alistGet] at h
  | cons hd tl ih =>
      obtain ⟨k', v'⟩ := hd
      by_cases hk : k = k'
      · rw [alistGet, if_pos hk] at h
        injection h with h
        subst hk
        subst h
        exact List.mem_cons_self _ _
      · rw [alistGet, if_neg hk] at h
        exact List.mem_cons_of_mem _ (ih h)

theorem alistSet_keys_of_get_some {κ α : Type} [DecidableEq κ]
    (m : List (κ × α)) (k : κ) (v w : α) (h : alistGet m k = some w) :
    (alistSet m k v).map Prod.fst = m.map Prod.fst := by
  induction m with
  | nil => simp [alistGet] at h
  | cons hd tl ih =>
      obtain ⟨k', v'⟩ := hd
      by_cases hk : k = k'
      · rw [alistSet, if_pos hk]
        simp [hk]
      · rw [alistGet, if_neg hk] at h
        rw [alistSet, if_neg hk]
        simp [ih h]

theorem alistSet_keys_of_get_none {κ α : Type} [DecidableEq κ]
    (m : List (κ × α)) (k : κ) (v : α) (h : alistGet m k = none) :
    (alistSet m k v).map Prod.fst = m.map Prod.fst ++ [k] := by
  rw [alistSet_of_get_none m k v h]
  simp

theorem dedupStep_keys_nodup (m : List (String × Anomaly)) (a : Anomaly)
    (h : (m.map Prod.fst).Nodup) :
    ((anomalyDedupStep m a).map Prod.fst).Nodup := by
  cases hget : alistGet m (dedupKey a) with
  | none =>
      simp only [anomalyDedupStep, hget]
      rw [alistSet_keys_of_get_none m _ a hget]
      have hnot : dedupKey a ∉ m.map Prod.fst := by
        intro hmem
        rcases List.mem_map.mp hmem with ⟨p, hp, hfst⟩
        exact ((alistGet_eq_none_iff m (dedupKey a)).mp hget p hp) hfst.symm
      simp [List.nodup_append, h, hnot]
  | some b =>
      simp only [anomalyDedupStep, hget]
      split
      · rw [alistSet_keys_of_get_some m _ a b hget]
        exact h
      · exact h

theorem dedupStep_entry_keys (m : List (String × Anomaly)) (a : Anomaly)
    (h : ∀ p ∈ m, p.1 = dedupKey p.2) :
    ∀ p ∈ anomalyDedupStep m a, p.1 = dedupKey p.2 := by
  cases hget : alistGet m (dedupKey a) with
  | none =>
      simp only [anomalyDedupStep, hget]
      intro p hp
      rcases alistSet_mem m _ a p hp with rfl | hp2
      · rfl
      · exact h p hp2
  | some b =>
      simp only [anomalyDedupStep, hget]
      split
      · intro p hp
        rcases alistSet_mem m _ a p hp with rfl | hp2
        · rfl
        · exact h p hp2
      · exact h

theorem dedupStep_get_self (m : List (String × Anomaly)) (a : Anomaly) :
    ∃ b, alistGet (anomalyDedupStep m a) (dedupKey a) = some b
      ∧ getSeverityScore a ≤ getSeverityScore b := by
  cases hget : alistGet m (dedupKey a) with
  | none =>
      refine ⟨a, ?_, le_refl _⟩
      simp only [anomalyDedupStep, hget]
      exact alistGet_alistSet_self m _ a
  | some b =>
      simp only [anomalyDedupStep, hget]
      by_cases hsev : getSeverityScore a > getSeverityScore b
      · rw [if_pos hsev]
        exact ⟨a, alistGet_alistSet_self m _ a, le_refl _⟩
      · rw [if_neg hsev]
        exact ⟨b, hget, by omega⟩

theorem dedupStep_get_mono (m : List (String × Anomaly)) (a : Anomaly)
    (k : String) (b : Anomaly) (h : alistGet m k = some b) :
    ∃ b2, alistGet (anomalyDedupStep m a) k = some b2
      ∧ getSeverityScore b ≤ getSeverityScore b2 := by
  by_cases hk : k = dedupKey a
  · subst hk
    simp only [anomalyDedupStep, h]
    by_cases hsev : getSeverityScore a > getSeverityScore b
    · rw [if_pos hsev]
      exact ⟨a, alistGet_alistSet_self m _ a, by omega⟩
    · rw [if_neg hsev]
      exact ⟨b, h, le_refl _⟩
  · cases hget : alistGet m (dedupKey a) with
    | none =>
        simp only [anomalyDedupStep, hget]
        rw [alistGet_alistSet_ne m _ k a hk]
        exact ⟨b, h, le_refl _⟩
    | some c =>
        simp only [anomalyDedupStep, hget]
        split
        · rw [alistGet_alistSet_ne m _ k a hk]
          exact ⟨b, h, le_refl _⟩
        · exact ⟨b, h, le_refl _⟩

theorem dedupFold_get_mono :
    ∀ (l : List Anomaly) (m : List (String × Anomaly)) (k : String)
      (b : Anomaly), alistGet m k = some b →
      ∃ b2, alistGet (l.foldl anomalyDedupStep m) k = some b2
        ∧ getSeverityScore b ≤ getSeverityScore b2 := by
  intro l
  induction l with
  | nil => intro m k b h; exact ⟨b, h, le_refl _⟩
  | cons a t ih =>
      intro m k b h
      obtain ⟨b1, h1, hs1⟩ := dedupStep_get_mono m a k b h
      obtain ⟨b2, h2, hs2⟩ := ih (anomalyDedupStep m a) k b1 h1
      exact ⟨b2, h2, le_trans hs1 hs2⟩

theorem dedupFold_covers :
    ∀ (l : List Anomaly) (m : List (String × Anomaly)) (a : Anomaly),
      a ∈ l →
      ∃ b, alistGet (l.foldl anomalyDedupStep m) (dedupKey a) = some b
        ∧ getSeverityScore a ≤ getSeverityScore b := by
  intro l
  induction l with
  | nil => intro m a h; cases h
  | cons x t ih =>
      intro m a h
      rcases List.mem_cons.mp h with rfl | h
      · obtain ⟨b1, h1, hs1⟩ := dedupStep_get_self m a
        obtain ⟨b2, h2, hs2⟩ := dedupFold_get_mono t _ _ b1 h1
        exact ⟨b2, h2, le_trans hs1 hs2⟩
      · exact ih _ a h

theorem dedupFold_keys_nodup :
    ∀ (l : List Anomaly) (m : List (String × Anomaly)),
      (m.map Prod.fst).Nodup →
      ((l.foldl anomalyDedupStep m).map Prod.fst).Nodup := by
  intro l
  induction l with
  | nil => intro m h; exact h
  | cons a t ih => intro m h; exact ih _ (dedupStep_keys_nodup m a h)

theorem dedupFold_entry_keys :
    ∀ (l : List Anomaly) (m : List (String × Anomaly)),
      (∀ p ∈ m, p.1 = dedupKey p.2) →
      ∀ p ∈ l.foldl anomalyDedupStep m, p.1 = dedupKey p.2 := by
  intro l
  induction l with
  | nil => intro m h; exact h
  | cons a t ih => intro m h; exact ih _ (dedupStep_entry_keys m a h)

theorem dedup_values_pairwise (m : List (String × Anomaly))
    (hnd : (m.map Prod.fst).Nodup) (hkeys : ∀ p ∈ m, p.1 = dedupKey p.2) :
    List.Pairwise (fun a b => dedupKey a ≠ dedupKey b) (m.map Prod.snd) := by
  rw [List.pairwise_map]
  have h1 : List.Pairwise (fun p q : String × Anomaly => p.1 ≠ q.1) m :=
    List.pairwise_map.mp hnd
  exact h1.imp_of_mem (fun {p q} hp hq hne => by
    rw [hkeys p hp, hkeys q hq] at hne
    exact hne)

/-- C4 amended: prioritizeAnomalies never returns two anomalies with
the same deduplication key — type, the affected-account list joined in
stored order (not sorted), and the minute-rounded timestamp — and every
anomaly fed to it is represented by a surviving anomaly with the same
key and severity at least as high. -/
theorem c4_amended_dedup (l : List Anomaly) :
    List.Pairwise (fun a b => dedupKey a ≠ dedupKey b) (prioritizeAnomalies l)
    ∧ ∀ a ∈ l, ∃ b ∈ prioritizeAnomalies l, dedupKey b = dedupKey a
        ∧ getSeverityScore a ≤ getSeverityScore b := by
  have hperm : List.Perm (prioritizeAnomalies l)
      ((anomalyDedup l).map Prod.snd) := by
    unfold prioritizeAnomalies
    exact List.perm_insertionSort _ _
  constructor
  · refine (hperm.pairwise_iff ?_).mpr ?_
    · intro a b h
      exact Ne.symm h
    · exact dedup_values_pairwise _ (dedupFold_keys_nodup l [] (by simp))
        (dedupFold_entry_keys l [] (by simp))
  · intro a ha
    obtain ⟨b, hget, hsev⟩ := dedupFold_covers l [] a ha
    have hmem : (dedupKey a, b) ∈ anomalyDedup l :=
      alistGet_some_mem _ _ _ hget
    have hbmem : b ∈ (anomalyDedup l).map Prod.snd :=
      List.mem_map_of_mem Prod.snd hmem
    have hkey : dedupKey b = dedupKey a :=
      (dedupFold_entry_keys l [] (by simp) _ hmem).symm
    exact ⟨b, hperm.mem_iff.mpr hbmem, hkey, hsev⟩

/-- Witness for C4 at a one-anomaly list. -/
theorem c4_witness :
    List.Pairwise (fun a b => dedupKey a ≠ dedupKey b)
        (prioritizeAnomalies [anC4w])
      ∧ anC4w ∈ [anC4w]
      ∧ ∃ b ∈ prioritizeAnomalies [anC4w], dedupKey b = dedupKey anC4w
          ∧ getSeverityScore anC4w ≤ getSeverityScore b :=
  ⟨(c4_amended_dedup [anC4w]).1, List.mem_singleton.mpr rfl,
    (c4_amended_dedup [anC4w]).2 anC4w (List.mem_singleton.mpr rfl)⟩

theorem consecutiveDiffs_cons₂ (a b : ℤ) (t : List ℤ) :
    consecutiveDiffs (a :: b :: t) = (b - a) :: consecutiveDiffs (b :: t) := by
  simp [consecutiveDiffs]

theorem allSame_of_short (l : List ℤ) (h : l.length < 2) : allSame l := by
  match l, h with
  | [], _ => intro x hx; cases hx
  | [a], _ =>
      intro x hx y hy
      simp at hx hy
      rw [hx, hy]

theorem allSame_perm (l l' : List ℤ) (hp : List.Perm l l') :
    allSame l ↔ allSame l' := by
  unfold allSame
  constructor
  · intro h x hx y hy
    exact h x (hp.mem_iff.mpr hx) y (hp.mem_iff.mpr hy)
  · intro h x hx y hy
    exact h x (hp.mem_iff.mp hx) y (hp.mem_iff.mp hy)

theorem diffs_nonneg_of_sorted :
    ∀ (l : List ℤ), l.Sorted (· ≤ ·) → ∀ d ∈ consecutiveDiffs l, 0 ≤ d := by
  intro l
  match l with
  | [] => intro _ d hd; cases hd
  | [a] => intro _ d hd; cases hd
  | a :: b :: t =>
      intro hs d hd
      rw [consecutiveDiffs_cons₂] at hd
      rcases List.mem_cons.mp hd with rfl | hd
      · have hab : a ≤ b := (List.sorted_cons.mp hs).1 b (List.mem_cons_self b t)
        omega
      · exact diffs_nonneg_of_sorted (b :: t) (List.sorted_cons.mp hs).2 d hd

theorem diffs_zero_of_allSame (l : List ℤ) (h : allSame l) :
    ∀ d ∈ consecutiveDiffs l, d = 0 := by
  intro d hd
  unfold consecutiveDiffs at hd
  rcases List.mem_map.mp hd with ⟨⟨x, y⟩, hxy, rfl⟩
  have hx : x ∈ l := (List.of_mem_zip hxy).1
  have hy : y ∈ l.tail := (List.of_mem_zip hxy).2
  have hy2 : y ∈ l := List.mem_of_mem_tail hy
  have := h x hx y hy2
  omega

theorem allSame_of_diffs_zero :
    ∀ (l : List ℤ), (∀ d ∈ consecutiveDiffs l, d = 0) → allSame l := by
  intro l
  match l with
  | [] => intro _; exact allSame_of_short [] (by simp)
  | [a] => intro _; exact allSame_of_short [a] (by simp)
  | a :: b :: t =>
      intro h
      have hab : b - a = 0 := h (b - a) (by rw [consecutiveDiffs_cons₂]; exact List.mem_cons_self _ _)
      have hrest : allSame (b :: t) := allSame_of_diffs_zero (b :: t)
        (fun d hd => h d (by rw [consecutiveDiffs_cons₂]; exact List.mem_cons_of_mem _ hd))
      intro x hx y hy
      have key : ∀ z ∈ a :: b :: t, z = b := by
        intro z hz
        rcases List.mem_cons.mp hz with rfl | hz
        · omega
        · exact hrest z hz b (List.mem_cons_self _ _)
      rw [key x hx, key y hy]

theorem int_sum_zero_all_zero :
    ∀ (l : List ℤ), (∀ x ∈ l, 0 ≤ x) → l.sum = 0 → ∀ x ∈ l, x = 0 := by
  intro l
  induction l with
  | nil => intro _ _ x hx; cases hx
  | cons a t ih =>
      intro hnn hsum x hx
      have ha : 0 ≤ a := hnn a (List.mem_cons_self _ _)
      have htail : 0 ≤ t.sum := List.sum_nonneg (fun y hy => hnn y (List.mem_cons_of_mem _ hy))
      rw [List.sum_cons] at hsum
      rcases List.mem_cons.mp hx with rfl | hx
      · omega
      · exact ih (fun y hy => hnn y (List.mem_cons_of_mem _ hy)) (by omega) x hx

theorem calculateCoordinationScore_eq (ts : List ℤ) (h : ¬ ts.length < 2) :
    calculateCoordinationScore ts =
      JSQ.max2 (.fin 0) ((JSQ.fin 1).sub
        ((JSQ.sqrt (.fin (varianceOf ts))).div (.fin (avgIntervalOf ts)))) := by
  unfold calculateCoordinationScore
  rw [if_neg h]
  rfl

theorem consecutiveDiffs_length (l : List ℤ) :
    (consecutiveDiffs l).length = l.length - 1 := by
  cases l with
  | nil => rfl
  | cons a t => simp [consecutiveDiffs]

theorem sum_map_intCast (l : List ℤ) :
    (l.map (fun i => ((i : ℤ) : ℚ))).sum = ((l.sum : ℤ) : ℚ) := by
  induction l with
  | nil => rfl
  | cons a t ih =>
      rw [List.map_cons, List.sum_cons, List.sum_cons, ih]
      push_cast
      ring

theorem ratSqrt_nonneg (q : ℚ) : 0 ≤ ratSqrt q := by
  unfold ratSqrt intSqrt
  rw [Rat.mkRat_eq_div]
  apply div_nonneg
  · exact_mod_cast Int.ofNat_nonneg _
  · exact Nat.cast_nonneg _

theorem avgIntervalOf_pos (ts : List ℤ) (h : ¬ allSame ts) :
    0 < avgIntervalOf ts := by
  have hlen : 2 ≤ ts.length := by
    by_contra hl
    exact h (allSame_of_short ts (by omega))
  have hperm : List.Perm (sortedTs ts) ts := List.perm_insertionSort _ ts
  have hsort : (sortedTs ts).Sorted (· ≤ ·) := List.sorted_insertionSort _ ts
  have hslen : (sortedTs ts).length = ts.length := hperm.length_eq
  have hnn : ∀ d ∈ consecutiveDiffs (sortedTs ts), 0 ≤ d :=
    diffs_nonneg_of_sorted _ hsort
  have hsum0 : 0 ≤ (consecutiveDiffs (sortedTs ts)).sum := List.sum_nonneg hnn
  have hsumne : (consecutiveDiffs (sortedTs ts)).sum ≠ 0 := by
    intro h0
    apply h
    rw [← allSame_perm _ _ hperm]
    exact allSame_of_diffs_zero _ (int_sum_zero_all_zero _ hnn h0)
  have hilen : 0 < (consecutiveDiffs (sortedTs ts)).length := by
    rw [consecutiveDiffs_length, hslen]
    omega
  unfold avgIntervalOf
  apply div_pos
  · rw [sum_map_intCast]
    exact_mod_cast lt_of_le_of_ne hsum0 (Ne.symm hsumne)
  · exact_mod_cast hilen

theorem varianceOf_nonneg (ts : List ℤ) : 0 ≤ varianceOf ts := by
  unfold varianceOf
  apply div_nonneg
  · apply List.sum_nonneg
    intro x hx
    rcases List.mem_map.mp hx with ⟨i, _, rfl⟩
    positivity
  · exact Nat.cast_nonneg _

theorem coordination_fin_nonneg (ts : List ℤ) (h : ¬ allSame ts) :
    ∃ u, calculateCoordinationScore ts = .fin u ∧ 0 ≤ u := by
  have hlen : 2 ≤ ts.length := by
    by_contra hl
    exact h (allSame_of_short ts (by omega))
  rw [calculateCoordinationScore_eq ts (by omega)]
  have havg := avgIntervalOf_pos ts h
  have hvar := varianceOf_nonneg ts
  refine ⟨max 0 (1 - ratSqrt (varianceOf ts) / avgIntervalOf ts), ?_,
    le_max_left _ _⟩
  have hsq : JSQ.sqrt (.fin (varianceOf ts)) = .fin (ratSqrt (varianceOf ts)) := by
    rw [show JSQ.sqrt (.fin (varianceOf ts))
        = if varianceOf ts < 0 then JSQ.nan else .fin (ratSqrt (varianceOf ts))
      from rfl]
    rw [if_neg (not_lt.mpr hvar)]
  rw [hsq]
  have hdiv : (JSQ.fin (ratSqrt (varianceOf ts))).div (.fin (avgIntervalOf ts))
      = .fin (ratSqrt (varianceOf ts) / avgIntervalOf ts) := by
    simp [JSQ.div, havg.ne']
  rw [hdiv]
  simp [JSQ.sub, JSQ.neg, JSQ.add, JSQ.max2, sub_eq_add_neg]

theorem coordination_nan (ts : List ℤ) (h : allSame ts) (h2 : 2 ≤ ts.length) :
    calculateCoordinationScore ts = .nan := by
  rw [calculateCoordinationScore_eq ts (by omega)]
  have hperm : List.Perm (sortedTs ts) ts := List.perm_insertionSort _ ts
  have hz : ∀ d ∈ consecutiveDiffs (sortedTs ts), d = 0 :=
    diffs_zero_of_allSame _ ((allSame_perm _ _ hperm).mpr h)
  have havg : avgIntervalOf ts = 0 := by
    have hs : ((consecutiveDiffs (sortedTs ts)).map
        (fun i => ((i : ℤ) : ℚ))).sum = 0 := by
      apply List.sum_eq_zero
      intro x hx
      rcases List.mem_map.mp hx with ⟨i, hi, rfl⟩
      rw [hz i hi]
      norm_num
    unfold avgIntervalOf
    rw [hs, zero_div]
  have hvar : varianceOf ts = 0 := by
    have hv : ((consecutiveDiffs (sortedTs ts)).map
        (fun i => (((i : ℤ) : ℚ) - avgIntervalOf ts) ^ 2)).sum = 0 := by
      apply List.sum_eq_zero
      intro x hx
      rcases List.mem_map.mp hx with ⟨i, hi, rfl⟩
      rw [hz i hi, havg]
      norm_num
    unfold varianceOf
    rw [hv, zero_div]
  rw [havg, hvar]
  decide

theorem burstiness_nonneg (ts : List ℤ) : 0 ≤ calculateBurstinessNA ts := by
  unfold calculateBurstinessNA
  split
  · exact le_refl 0
  · dsimp only
    split
    · norm_num
    · positivity

theorem suspicion_fin (ap : ActivityPattern) (coh : ℚ)
    (hc : ∃ u, ap.coordinationScore = .fin u ∧ 0 ≤ u)
    (hb : 0 ≤ ap.burstiness) (hcoh : 0 ≤ coh) :
    ∃ s, calculateSuspicionScore ap coh = .fin s ∧ 0 ≤ s ∧ s ≤ 1 := by
  obtain ⟨u, hu, hu0⟩ := hc
  refine ⟨min 1 (u * (4/10) + ap.burstiness * (3/10) + coh * (3/10)), ?_, ?_,
    min_le_left _ _⟩
  · unfold calculateSuspicionScore
    rw [hu]
    simp [JSQ.mul, JSQ.add, JSQ.min2]
  · apply le_min
    · norm_num
    · exact add_nonneg (add_nonneg (mul_nonneg hu0 (by norm_num))
        (mul_nonneg hb (by norm_num))) (mul_nonneg hcoh (by norm_num))

theorem suspicion_nan (ap : ActivityPattern) (coh : ℚ)
    (hc : ap.coordinationScore = .nan) :
    calculateSuspicionScore ap coh = .nan := by
  unfold calculateSuspicionScore
  rw [hc]
  rfl

theorem coherence_nonneg (ns : List String) (es : List NetworkEdge) :
    0 ≤ calculateClusterCoherence ns es := by
  unfold calculateClusterCoherence
  dsimp only
  split
  · exact le_refl 0
  · rename_i hn
    apply div_nonneg
    · exact Nat.cast_nonneg _
    · apply div_nonneg
      · apply mul_nonneg (Nat.cast_nonneg _)
        have h2 : (2 : ℚ) ≤ (ns.length : ℚ) := by exact_mod_cast (by omega : 2 ≤ ns.length)
        linarith
      · norm_num

theorem nodup_subset_length (l m : List String) (hn : l.Nodup)
    (hs : ∀ x ∈ l, x ∈ m) : l.length ≤ m.length :=
  (hn.subperm hs).length_le

theorem coherence_le_one (ns : List String) (es : List NetworkEdge)
    (hnodup : (es.map (fun e => e.source)).Nodup) (h3 : 3 ≤ ns.length) :
    calculateClusterCoherence ns
      (es.filter (fun e => decide (e.source ∈ ns) && decide (e.target ∈ ns)))
      ≤ 1 := by
  set fes := es.filter (fun e => decide (e.source ∈ ns) && decide (e.target ∈ ns))
    with hfes
  have hsub : List.Sublist fes es := by
    rw [hfes]
    exact List.filter_sublist es
  have hnodup2 : (fes.map (fun e => e.source)).Nodup :=
    List.Nodup.sublist (hsub.map _) hnodup
  have hmem : ∀ x ∈ fes.map (fun e => e.source), x ∈ ns := by
    intro x hx
    rcases List.mem_map.mp hx with ⟨e, he, rfl⟩
    rw [hfes] at he
    have h2 := (List.mem_filter.mp he).2
    simp at h2
    exact h2.1
  have hlen : fes.length ≤ ns.length := by
    have h4 := nodup_subset_length _ _ hnodup2 hmem
    rwa [List.length_map] at h4
  unfold calculateClusterCoherence
  dsimp only
  split
  · norm_num
  · have hn : (3 : ℚ) ≤ (ns.length : ℚ) := by exact_mod_cast h3
    have hf : (fes.length : ℚ) ≤ (ns.length : ℚ) := by exact_mod_cast hlen
    rw [div_le_one (by nlinarith)]
    nlinarith

theorem buildNetworkGraph_eq (d : SpreadData) :
    buildNetworkGraph d
      = ((bngNodeMap d).map (fun p => p.2), (bngStage d).2) := rfl

theorem addConnection_keys (m : List (String × NetworkNode)) (k other : String) :
    (addConnection m k other).map Prod.fst = m.map Prod.fst := by
  unfold addConnection
  cases hget : alistGet m k with
  | none => rfl
  | some node =>
      dsimp only
      split
      · rfl
      · exact alistSet_keys_of_get_some m k _ node hget

theorem addConnection_accs (m : List (String × NetworkNode)) (k other : String)
    (h1 : ∀ p ∈ m, p.2.accountId = p.1) :
    ∀ p ∈ addConnection m k other, p.2.accountId = p.1 := by
  unfold addConnection
  cases hget : alistGet m k with
  | none => exact h1
  | some node =>
      dsimp only
      split
      · exact h1
      · intro p hp
        rcases alistSet_mem m k _ p hp with hp2 | hp2
        · rw [hp2]
          exact h1 (k, node) (alistGet_some_mem m k node hget)
        · exact h1 p hp2

theorem addNodeAndEdge_inv (m : List (String × NetworkNode))
    (es : List NetworkEdge) (acc A : String) (ty : EdgeType) (ts : ℤ) (w : ℚ)
    (h1 : ∀ p ∈ m, p.2.accountId = p.1)
    (h2 : ∀ e ∈ es, e.source ∈ m.map Prod.fst) :
    (∀ p ∈ (addNodeAndEdge m es acc A ty ts w).1, p.2.accountId = p.1)
    ∧ (∀ e ∈ (addNodeAndEdge m es acc A ty ts w).2,
        e.source ∈ (addNodeAndEdge m es acc A ty ts w).1.map Prod.fst) := by
  unfold addNodeAndEdge
  cases hget : alistGet m acc with
  | some node =>
      simp only [hget]
      constructor
      · exact h1
      · intro e he
        rcases List.mem_append.mp he with he | he
        · exact h2 e he
        · simp at he
          rw [he]
          exact List.mem_map_of_mem Prod.fst (alistGet_some_mem m acc node hget)
  | none =>
      simp only [hget]
      rw [alistSet_of_get_none m acc _ hget]
      constructor
      · intro p hp
        rcases List.mem_append.mp hp with hp | hp
        · exact h1 p hp
        · simp at hp
          rw [hp]
      · intro e he
        rw [List.map_append]
        rcases List.mem_append.mp he with he | he
        · exact List.mem_append_left _ (h2 e he)
        · simp at he
          rw [he]
          apply List.mem_append_right
          simp

theorem foldl_addNodeAndEdge_inv2 (A : String) (ty : EdgeType) (w : ℚ)
    (items : List SpreadItem) :
    ∀ st : List (String × NetworkNode) × List NetworkEdge,
      (∀ p ∈ st.1, p.2.accountId = p.1) →
      (∀ e ∈ st.2, e.source ∈ st.1.map Prod.fst) →
      (∀ p ∈ (items.foldl (fun st it =>
          addNodeAndEdge st.1 st.2 it.authorId A ty it.createdAt w) st).1,
        p.2.accountId = p.1)
      ∧ (∀ e ∈ (items.foldl (fun st it =>
          addNodeAndEdge st.1 st.2 it.authorId A ty it.createdAt w) st).2,
        e.source ∈ (items.foldl (fun st it =>
          addNodeAndEdge st.1 st.2 it.authorId A ty it.createdAt w) st).1.map Prod.fst) := by
  induction items with
  | nil => intro st h1 h2; exact ⟨h1, h2⟩
  | cons it t ih =>
      intro st h1 h2
      simp only [List.foldl_cons]
      obtain ⟨g1, g2⟩ :=
        addNodeAndEdge_inv st.1 st.2 it.authorId A ty it.createdAt w h1 h2
      exact ih _ g1 g2

theorem bngStage_inv (d : SpreadData) :
    (∀ p ∈ (bngStage d).1, p.2.accountId = p.1)
    ∧ (∀ e ∈ (bngStage d).2, e.source ∈ (bngStage d).1.map Prod.fst) := by
  unfold bngStage
  dsimp only
  obtain ⟨q1, q2⟩ := foldl_addNodeAndEdge_inv2
    d.originalTweet.authorId .retweet 1 d.retweets
    (([(d.originalTweet.authorId,
      { id := "node-" ++ d.originalTweet.authorId
        accountId := d.originalTweet.authorId, type := NodeType.source
        influence := 100, connections := []
        timestamp := d.originalTweet.createdAt })], [])
      : List (String × NetworkNode) × List NetworkEdge)
    (by
      intro p hp
      simp at hp
      rw [hp])
    (by
      intro e he
      cases he)
  obtain ⟨r1, r2⟩ := foldl_addNodeAndEdge_inv2
    d.originalTweet.authorId .quote 2 d.quotes _ q1 q2
  exact foldl_addNodeAndEdge_inv2
    d.originalTweet.authorId .reply (3/2) d.replies _ r1 r2

theorem foldl_addConnection_inv (edges : List NetworkEdge) :
    ∀ m : List (String × NetworkNode),
      (∀ p ∈ m, p.2.accountId = p.1) →
      ((edges.foldl (fun m e =>
          addConnection (addConnection m e.source e.target) e.target e.source)
          m).map Prod.fst = m.map Prod.fst
        ∧ ∀ p ∈ edges.foldl (fun m e =>
            addConnection (addConnection m e.source e.target) e.target e.source) m,
          p.2.accountId = p.1) := by
  induction edges with
  | nil => intro m h; exact ⟨rfl, h⟩
  | cons e t ih =>
      intro m h
      simp only [List.foldl_cons]
      obtain ⟨k1, k2⟩ := ih
        (addConnection (addConnection m e.source e.target) e.target e.source)
        (addConnection_accs _ _ _ (addConnection_accs _ _ _ h))
      refine ⟨?_, k2⟩
      rw [k1, addConnection_keys, addConnection_keys]

theorem buildNetworkGraph_source_node (d : SpreadData) :
    ∀ e ∈ (buildNetworkGraph d).2,
      ∃ n ∈ (buildNetworkGraph d).1, n.accountId = e.source := by
  obtain ⟨h1, h2⟩ := bngStage_inv d
  obtain ⟨hkeys, haccs⟩ := foldl_addConnection_inv (bngStage d).2 (bngStage d).1 h1
  intro e he
  rw [buildNetworkGraph_eq] at he ⊢
  dsimp only at he ⊢
  have hs : e.source ∈ (bngStage d).1.map Prod.fst := h2 e he
  rw [← hkeys] at hs
  rcases List.mem_map.mp hs with ⟨p, hp, hps⟩
  exact ⟨p.2, List.mem_map_of_mem _ hp, by rw [haccs p hp, hps]⟩

theorem buildNetworkGraph_author_node (d : SpreadData) :
    ∃ n ∈ (buildNetworkGraph d).1,
      n.accountId = d.originalTweet.authorId := by
  obtain ⟨rest, h, _⟩ := buildNetworkGraph_nodes_proj d
  cases hg : (buildNetworkGraph d).1 with
  | nil => rw [hg] at h; cases h
  | cons n0 t =>
      rw [hg] at h
      simp only [List.map_cons, List.cons.injEq] at h
      exact ⟨n0, List.mem_cons_self _ _, congrArg (fun p => p.2.1) h.1⟩

theorem buildNetworkGraph_endpoints (d : SpreadData) :
    ∀ e ∈ (buildNetworkGraph d).2,
      (∃ n ∈ (buildNetworkGraph d).1, n.accountId = e.source)
      ∧ (∃ n ∈ (buildNetworkGraph d).1, n.accountId = e.target) := by
  intro e he
  refine ⟨buildNetworkGraph_source_node d e he, ?_⟩
  rw [buildNetworkGraph_edge_targets d e he]
  exact buildNetworkGraph_author_node d

theorem alistAddMem_values (m : List (String × List String)) (k v k₁ : String)
    (l₁ : List String) (h : alistGet (alistAddMem m k v) k₁ = some l₁) :
    ∀ x ∈ l₁, x = v ∨ ∃ l₀, alistGet m k₁ = some l₀ ∧ x ∈ l₀ := by
  induction m with
  | nil => simp [alistAddMem, alistGet] at h
  | cons p t ih =>
      obtain ⟨k', vs⟩ := p
      unfold alistAddMem at h
      by_cases hk : k = k'
      · rw [if_pos hk] at h
        unfold alistGet at h
        by_cases hk1 : k₁ = k'
        · rw [if_pos hk1] at h
          injection h with h
          subst h
          intro x hx
          unfold listAdd at hx
          split at hx
          · exact Or.inr ⟨vs, by unfold alistGet; rw [if_pos hk1], hx⟩
          · rcases List.mem_append.mp hx with hx | hx
            · exact Or.inr ⟨vs, by unfold alistGet; rw [if_pos hk1], hx⟩
            · left
              simpa using hx
        · rw [if_neg hk1] at h
          intro x hx
          right
          refine ⟨l₁, ?_, hx⟩
          unfold alistGet
          rw [if_neg hk1]
          exact h
      · rw [if_neg hk] at h
        unfold alistGet at h
        by_cases hk1 : k₁ = k'
        · rw [if_pos hk1] at h
          injection h with h
          subst h
          intro x hx
          right
          exact ⟨vs, by unfold alistGet; rw [if_pos hk1], hx⟩
        · rw [if_neg hk1] at h
          intro x hx
          rcases ih h x hx with hx2 | ⟨l₀, hl₀, hxl₀⟩
          · exact Or.inl hx2
          · right
            refine ⟨l₀, ?_, hxl₀⟩
            unfold alistGet
            rw [if_neg hk1]
            exact hl₀

theorem foldl_alistAddMem_values (P : String → Prop) :
    ∀ (es : List NetworkEdge) (m : List (String × List String)),
      (∀ e ∈ es, P e.source ∧ P e.target) →
      (∀ k l, alistGet m k = some l → ∀ x ∈ l, P x) →
      ∀ k l, alistGet (es.foldl (fun m e =>
          alistAddMem (alistAddMem m e.source e.target) e.target e.source) m) k
        = some l → ∀ x ∈ l, P x := by
  intro es
  induction es with
  | nil => intro m _ hm; exact hm
  | cons e t ih =>
      intro m hes hm
      simp only [List.foldl_cons]
      apply ih _ (fun e' he' => hes e' (List.mem_cons_of_mem _ he'))
      intro k l hget x hx
      rcases alistAddMem_values _ _ _ _ _ hget x hx with rfl | ⟨l₀, hget₀, hx₀⟩
      · exact (hes e (List.mem_cons_self _ _)).1
      · rcases alistAddMem_values _ _ _ _ _ hget₀ x hx₀ with rfl | ⟨l₁, hget₁, hx₁⟩
        · exact (hes e (List.mem_cons_self _ _)).2
        · exact hm k l₁ hget₁ x hx₁

theorem alistGet_init_nil (nodes : List NetworkNode) (k : String)
    (l : List String)
    (h : alistGet (nodes.map (fun n => (n.accountId, ([] : List String)))) k
      = some l) : l = [] := by
  induction nodes with
  | nil => simp [alistGet] at h
  | cons n t ih =>
      rw [List.map_cons] at h
      unfold alistGet at h
      by_cases hk : k = n.accountId
      · rw [if_pos hk] at h
        injection h with h
        exact h.symm
      · rw [if_neg hk] at h
        exact ih h

theorem buildAdjacencyList_values (nodes : List NetworkNode)
    (edges : List NetworkEdge) (P : String → Prop)
    (hes : ∀ e ∈ edges, P e.source ∧ P e.target) :
    ∀ k l, alistGet (buildAdjacencyList nodes edges) k = some l →
      ∀ x ∈ l, P x := by
  unfold buildAdjacencyList
  apply foldl_alistAddMem_values P edges _ hes
  intro k l h x hx
  rw [alistGet_init_nil nodes k l h] at hx
  cases hx

theorem bfsExpand_mem (adj : List (String × List String)) :
    ∀ (fuel : ℕ) (queue visited : List String) (x : String),
      x ∈ (bfsExpand adj fuel queue visited).1 →
      x ∈ queue ∨ ∃ k l, alistGet adj k = some l ∧ x ∈ l := by
  intro fuel
  induction fuel with
  | zero =>
      intro queue visited x hx
      simp [bfsExpand] at hx
  | succ f ih =>
      intro queue visited x hx
      match queue with
      | [] => simp [bfsExpand] at hx
      | current :: rest =>
          rw [bfsExpand] at hx
          by_cases hcv : current ∈ visited
          · rw [if_pos hcv] at hx
            rcases ih rest visited x hx with h | h
            · exact Or.inl (List.mem_cons_of_mem _ h)
            · exact Or.inr h
          · rw [if_neg hcv] at hx
            dsimp only at hx
            rcases List.mem_cons.mp hx with rfl | hx
            · exact Or.inl (List.mem_cons_self _ _)
            · rcases ih _ _ x hx with h | h
              · rcases List.mem_append.mp h with h | h
                · exact Or.inl (List.mem_cons_of_mem _ h)
                · have hx2 : x ∈ (alistGet adj current).getD [] :=
                    List.mem_of_mem_filter h
                  cases hget : alistGet adj current with
                  | none =>
                      rw [hget] at hx2
                      cases hx2
                  | some lv =>
                      rw [hget] at hx2
                      exact Or.inr ⟨current, lv, hget, hx2⟩
              · exact Or.inr h

theorem detectClustersGo_mem (adj : List (String × List String))
    (allNodes : List NetworkNode) (edges : List NetworkEdge)
    (now : ℤ) (rand : String) :
    ∀ (l : List NetworkNode) (visited : List String) (c : Cluster),
      c ∈ detectClustersGo adj allNodes edges now rand l visited →
      ∃ members, 3 ≤ members.length
        ∧ c = analyzeCluster members allNodes edges now rand
        ∧ ∀ x ∈ members,
            (∃ n ∈ l, n.accountId = x)
            ∨ ∃ k lv, alistGet adj k = some lv ∧ x ∈ lv := by
  intro l
  induction l with
  | nil =>
      intro visited c hc
      simp [detectClustersGo] at hc
  | cons node rest ih =>
      intro visited c hc
      rw [detectClustersGo] at hc
      by_cases hv : node.accountId ∈ visited
      · rw [if_pos hv] at hc
        obtain ⟨ms, h3, heq, hmem⟩ := ih visited c hc
        refine ⟨ms, h3, heq, ?_⟩
        intro x hx
        rcases hmem x hx with ⟨n, hn, ha⟩ | h
        · exact Or.inl ⟨n, List.mem_cons_of_mem _ hn, ha⟩
        · exact Or.inr h
      · rw [if_neg hv] at hc
        dsimp only at hc
        by_cases hlen :
            (bfsExpand adj (totalAdjSize adj + 2) [node.accountId] visited).1.length ≥ 3
        · rw [if_pos hlen] at hc
          rcases List.mem_cons.mp hc with rfl | hc
          · refine ⟨_, hlen, rfl, ?_⟩
            intro x hx
            rcases bfsExpand_mem adj _ _ _ x hx with h | h
            · left
              simp at h
              exact ⟨node, List.mem_cons_self _ _, h.symm⟩
            · exact Or.inr h
          · obtain ⟨ms, h3, heq, hmem⟩ := ih _ c hc
            refine ⟨ms, h3, heq, ?_⟩
            intro x hx
            rcases hmem x hx with ⟨n, hn, ha⟩ | h
            · exact Or.inl ⟨n, List.mem_cons_of_mem _ hn, ha⟩
            · exact Or.inr h
        · rw [if_neg hlen] at hc
          obtain ⟨ms, h3, heq, hmem⟩ := ih _ c hc
          refine ⟨ms, h3, heq, ?_⟩
          intro x hx
          rcases hmem x hx with ⟨n, hn, ha⟩ | h
          · exact Or.inl ⟨n, List.mem_cons_of_mem _ hn, ha⟩
          · exact Or.inr h

theorem length_filterMap_of_all_some {α β : Type} (f : α → Option β) :
    ∀ l : List α, (∀ x ∈ l, (f x).isSome) →
      (l.filterMap f).length = l.length := by
  intro l
  induction l with
  | nil => intro _; rfl
  | cons a t ih =>
      intro h
      rw [List.filterMap_cons]
      cases hf : f a with
      | none =>
          have h2 := h a (List.mem_cons_self _ _)
          rw [hf] at h2
          cases h2
      | some b =>
          simp only [List.length_cons]
          rw [ih (fun x hx => h x (List.mem_cons_of_mem _ hx))]

theorem memberTimestamps_length (members : List String)
    (allNodes : List NetworkNode)
    (h : ∀ x ∈ members, ∃ n ∈ allNodes, n.accountId = x) :
    (memberTimestamps members allNodes).length = members.length := by
  unfold memberTimestamps
  apply length_filterMap_of_all_some
  intro x hx
  obtain ⟨n, hn, ha⟩ := h x hx
  simp only [Option.isSome_map', List.find?_isSome]
  exact ⟨n, hn, by simp [ha]⟩

theorem foldl_addNodeAndEdge_snd (A : String) (ty : EdgeType) (w : ℚ)
    (items : List SpreadItem) :
    ∀ st : List (String × NetworkNode) × List NetworkEdge,
      (items.foldl (fun st it =>
          addNodeAndEdge st.1 st.2 it.authorId A ty it.createdAt w) st).2
      = st.2 ++ items.map (fun it =>
          { source := it.authorId, target := A, type := ty
            weight := w, timestamp := it.createdAt }) := by
  induction items with
  | nil => intro st; simp
  | cons it t ih =>
      intro st
      simp only [List.foldl_cons, List.map_cons]
      rw [ih]
      rw [show (addNodeAndEdge st.1 st.2 it.authorId A ty it.createdAt w).2
          = st.2 ++ [{ source := it.authorId, target := A, type := ty
                       weight := w, timestamp := it.createdAt }] from rfl]
      rw [List.append_assoc]
      rfl

theorem buildNetworkGraph_edge_sources (d : SpreadData) :
    ((buildNetworkGraph d).2).map (fun e => e.source)
      = (((d.retweets ++ d.quotes) ++ d.replies).map (fun it => it.authorId)) := by
  have h : (buildNetworkGraph d).2 = (bngStage d).2 := rfl
  rw [h]
  unfold bngStage
  dsimp only
  rw [foldl_addNodeAndEdge_snd, foldl_addNodeAndEdge_snd, foldl_addNodeAndEdge_snd]
  simp only [List.nil_append, List.map_append, List.map_map]
  rfl

/-- C1 amended: every cluster of analyzeNetwork has at least three
member accounts and nonnegative coherence; coherence is bounded by 1
whenever the spread events carry pairwise distinct authors; and the
suspicion score is a finite value in [0, 1] exactly when the members'
first-seen timestamps do not all coincide — when they do, the
coefficient of variation is the JS NaN of 0/0 and the suspicion score
is NaN. -/
theorem c1_amended_cluster_bounds (d : SpreadData) (aid : String) (now : ℤ)
    (rand : String) (c : Cluster)
    (hc : c ∈ (analyzeNetwork d aid now rand).clusters) :
    3 ≤ c.nodes.length ∧
    0 ≤ c.coherence ∧
    (authorsDistinct d → c.coherence ≤ 1) ∧
    (¬ allSame (memberTimestamps c.nodes (analyzeNetwork d aid now rand).nodes) →
      ∃ s, c.suspicionScore = JSQ.fin s ∧ 0 ≤ s ∧ s ≤ 1) ∧
    (allSame (memberTimestamps c.nodes (analyzeNetwork d aid now rand).nodes) →
      c.suspicionScore = JSQ.nan) := by
  have hcl : (analyzeNetwork d aid now rand).clusters
      = detectClustersGo
          (buildAdjacencyList (buildNetworkGraph d).1 (buildNetworkGraph d).2)
          (buildNetworkGraph d).1 (buildNetworkGraph d).2 now rand
          (buildNetworkGraph d).1 [] := rfl
  rw [hcl] at hc
  obtain ⟨ms, h3, heq, hmem⟩ := detectClustersGo_mem _ _ _ now rand _ _ c hc
  have hmem2 : ∀ x ∈ ms, ∃ n ∈ (buildNetworkGraph d).1, n.accountId = x := by
    intro x hx
    rcases hmem x hx with h | ⟨k, lv, hget, hxl⟩
    · exact h
    · exact buildAdjacencyList_values _ _
        (fun s => ∃ n ∈ (buildNetworkGraph d).1, n.accountId = s)
        (fun e he => buildNetworkGraph_endpoints d e he) k lv hget x hxl
  have hnodes : c.nodes = ms := by
    rw [heq]
    rfl
  have hannodes : (analyzeNetwork d aid now rand).nodes
      = (buildNetworkGraph d).1 := rfl
  set ts := memberTimestamps ms (buildNetworkGraph d).1
  have htslen : ts.length = ms.length := memberTimestamps_length ms _ hmem2
  have htseq : memberTimestamps c.nodes (analyzeNetwork d aid now rand).nodes
      = ts := by rw [hnodes, hannodes]
  have hcoh : c.coherence = calculateClusterCoherence ms
      ((buildNetworkGraph d).2.filter
        (fun e => decide (e.source ∈ ms) && decide (e.target ∈ ms))) := by
    rw [heq]
    rfl
  have hsusp : c.suspicionScore = calculateSuspicionScore
      (calculateActivityPattern ms (buildNetworkGraph d).1)
      (calculateClusterCoherence ms
        ((buildNetworkGraph d).2.filter
          (fun e => decide (e.source ∈ ms) && decide (e.target ∈ ms)))) := by
    rw [heq]
    rfl
  refine ⟨?_, ?_, ?_, ?_, ?_⟩
  · rw [hnodes]
    exact h3
  · rw [hcoh]
    exact coherence_nonneg _ _
  · intro had
    rw [hcoh]
    apply coherence_le_one _ _ ?_ h3
    rw [buildNetworkGraph_edge_sources d]
    exact had
  · intro hns
    rw [htseq] at hns
    rw [hsusp]
    apply suspicion_fin
    · rw [show (calculateActivityPattern ms (buildNetworkGraph d).1).coordinationScore
          = calculateCoordinationScore ts from rfl]
      exact coordination_fin_nonneg ts hns
    · rw [show (calculateActivityPattern ms (buildNetworkGraph d).1).burstiness
          = calculateBurstinessNA ts from rfl]
      exact burstiness_nonneg ts
    · exact coherence_nonneg _ _
  · intro hs
    rw [htseq] at hs
    rw [hsusp]
    apply suspicion_nan
    rw [show (calculateActivityPattern ms (buildNetworkGraph d).1).coordinationScore
        = calculateCoordinationScore ts from rfl]
    apply coordination_nan ts hs
    rw [htslen]
    omega

/-- Witness for C1 on dC1w: its single three-member cluster satisfies
every bound, with the antecedents discharged by evaluation. -/
theorem c1_witness :
    cC1w ∈ (analyzeNetwork dC1w aidX 0 randX).clusters ∧
    3 ≤ cC1w.nodes.length ∧ 0 ≤ cC1w.coherence ∧ cC1w.coherence ≤ 1 ∧
    ∃ s, cC1w.suspicionScore = JSQ.fin s ∧ 0 ≤ s ∧ s ≤ 1 := by
  have hmem : cC1w ∈ (analyzeNetwork dC1w aidX 0 randX).clusters := by decide
  obtain ⟨h1, h2, h3, h4, _⟩ :=
    c1_amended_cluster_bounds dC1w aidX 0 randX cC1w hmem
  exact ⟨hmem, h1, h2, h3 (by unfold authorsDistinct; decide), h4 (by decide)⟩
